import Mathlib

/-!
# WarehouseControl: history query builder, update merge, validation, access control

A shallow embedding of the decision logic of the warehouse inventory API:

* `internal/domain` (items, history records and filters, users, error sentinels),
* `internal/repository/history` (the filterable history query),
* `internal/usecase/history`, `internal/usecase/items` and `internal/usecase/auth`,
* `internal/http-server/handler/items` (the partial update merge, the error mapping),
* `internal/http-server/handler/auth` (token issuance on login),
* `internal/http-server/middleware` (the bearer-token gate and the role guard).

The token library is not part of the sources; it is modelled as the
specification describes it, with a symbolic MAC and the compact serialisation
as a parameter.

Go values are embedded as follows: `int`, `int64` are `Int` (no arithmetic is
performed on them except the slot counter, which only counts upwards from 1 and
is a `Nat`); `string` is `String`; a pointer that may be nil is an `Option`;
`error` is `GoError` with `nil` as `Option.none`; `float64` prices are only
copied and compared with zero, and are embedded as rationals; `time.Time`
values are only copied and are embedded as an integer instant.  Logging calls
have no influence on control flow and are left out.
-/

namespace WarehouseControl

/-! ## internal/domain -/

/-- Instant of `time.Time`, as nanoseconds since the Unix epoch. -/
structure Time where
  unixNano : Int
  deriving DecidableEq, Repr

/-- Struct `domain.Item` of `internal/domain/item.go`. -/
structure Item where
  ID : Int
  Name : String
  SKU : String
  Quantity : Int
  Price : Rat
  Category : String
  Location : String
  CreatedAt : Time
  UpdatedAt : Time
  deriving DecidableEq, Repr

/-- Struct `domain.HistoryRecord` of `internal/domain/history.go`. -/
structure HistoryRecord where
  ID : Int
  ItemID : Int
  Action : String
  OldData : Option Item
  NewData : Option Item
  ChangedBy : String
  ChangedAt : Time
  deriving DecidableEq, Repr

/-- Struct `domain.HistoryFilter` of `internal/domain/history.go`; the five
pointer fields are optional. -/
structure HistoryFilter where
  ItemID : Option Int
  Action : Option String
  Username : Option String
  DateFrom : Option Time
  DateTo : Option Time
  Limit : Int
  Offset : Int
  deriving DecidableEq, Repr

/-- Type `domain.UserRole` of `internal/domain/user.go`: a named string type. -/
abbrev UserRole := String

/-- Constant `domain.RoleAdmin`. -/
def RoleAdmin : UserRole := "admin"

/-- Constant `domain.RoleManager`. -/
def RoleManager : UserRole := "manager"

/-- Constant `domain.RoleViewer`. -/
def RoleViewer : UserRole := "viewer"

/-! ## internal/domain/errors -/

/-- The package-level error values of `internal/domain/errors/errors.go`. -/
inductive Sentinel where
  | ErrItemNotFound
  | ErrUserNotFound
  | ErrInvalidInput
  | ErrUnauthorized
  | ErrForbidden
  | ErrInvalidCredentials
  | ErrTokenExpired
  | ErrTokenInvalid
  | ErrDatabase
  | ErrInternal
  deriving DecidableEq, Repr

/-- Text given to `errors.New` for each sentinel. -/
def Sentinel.text : Sentinel → String
  | .ErrItemNotFound => "item not found"
  | .ErrUserNotFound => "user not found"
  | .ErrInvalidInput => "invalid input"
  | .ErrUnauthorized => "unauthorized"
  | .ErrForbidden => "forbidden"
  | .ErrInvalidCredentials => "invalid credentials"
  | .ErrTokenExpired => "token expired"
  | .ErrTokenInvalid => "token invalid"
  | .ErrDatabase => "database error"
  | .ErrInternal => "internal error"

/-- A Go `error` value as far as this code base can tell errors apart: one of
the sentinels itself, an error of another package (driver, validator) carrying
only text, or the result of `fmt.Errorf("%w: %v", w, v)`, which unwraps to `w`
and keeps only the text of `v`. -/
inductive GoError where
  | sentinel (s : Sentinel)
  | foreign (text : String)
  | errorf (w : GoError) (v : String)
  deriving DecidableEq, Repr

/-- Method `Error()` of an error value. -/
def GoError.Error : GoError → String
  | .sentinel s => s.text
  | .foreign t => t
  | .errorf w v => w.Error ++ ": " ++ v

/-- Call `fmt.Errorf("%w: %v", w, v)`. -/
def fmtErrorf (w v : GoError) : GoError := .errorf w v.Error

/-- Call `errors.Is(err, target)` for a sentinel target: follows the `Unwrap`
chain and compares by identity. -/
def errorsIs : GoError → Sentinel → Bool
  | .sentinel s, t => decide (s = t)
  | .foreign _, _ => false
  | .errorf w _, t => errorsIs w t

/-! ## internal/repository/history -/

/-- A value passed to the driver in the `args ...interface{}` list. -/
inductive SqlArg where
  | int64 (v : Int)
  | string (v : String)
  | time (v : Time)
  | int (v : Int)
  deriving DecidableEq, Repr

/-- The local variables `query`, `args`, `argIndex` of
`HistoryPostgresRepository.GetHistory`. -/
structure Builder where
  query : String
  args : List SqlArg
  argIndex : Nat
  deriving DecidableEq, Repr

/-- Initial text of `query` (the raw string literal of lines 26-30). -/
def baseQuery : String :=
  "\n\t\tSELECT id, item_id, action, old_data, new_data, changed_by, changed_at\n\t\tFROM items_history\n\t\tWHERE 1=1\n\t"

/-- Text appended on line 60. -/
def orderLimitOffset : String := " ORDER BY changed_at DESC LIMIT $1 OFFSET $2"

/-- Lines 26-32: the state before the first conditional. -/
def Builder.init : Builder :=
  { query := baseQuery, args := [], argIndex := 1 }

/-- Lines 34-38: `if filter.ItemID != nil`. -/
def Builder.withItemID (b : Builder) (filter : HistoryFilter) : Builder :=
  match filter.ItemID with
  | some v =>
    { query := b.query ++ (" AND item_id = $" ++ toString b.argIndex)
      args := b.args ++ [SqlArg.int64 v]
      argIndex := b.argIndex + 1 }
  | none => b

/-- Lines 39-43: `if filter.Action != nil`. -/
def Builder.withAction (b : Builder) (filter : HistoryFilter) : Builder :=
  match filter.Action with
  | some v =>
    { query := b.query ++ (" AND action = $" ++ toString b.argIndex)
      args := b.args ++ [SqlArg.string v]
      argIndex := b.argIndex + 1 }
  | none => b

/-- Lines 44-48: `if filter.Username != nil`. -/
def Builder.withUsername (b : Builder) (filter : HistoryFilter) : Builder :=
  match filter.Username with
  | some v =>
    { query := b.query ++ (" AND changed_by = $" ++ toString b.argIndex)
      args := b.args ++ [SqlArg.string v]
      argIndex := b.argIndex + 1 }
  | none => b

/-- Lines 49-53: `if filter.DateFrom != nil`. -/
def Builder.withDateFrom (b : Builder) (filter : HistoryFilter) : Builder :=
  match filter.DateFrom with
  | some v =>
    { query := b.query ++ (" AND changed_at >= $" ++ toString b.argIndex)
      args := b.args ++ [SqlArg.time v]
      argIndex := b.argIndex + 1 }
  | none => b

/-- Lines 54-58: `if filter.DateTo != nil`. -/
def Builder.withDateTo (b : Builder) (filter : HistoryFilter) : Builder :=
  match filter.DateTo with
  | some v =>
    { query := b.query ++ (" AND changed_at <= $" ++ toString b.argIndex)
      args := b.args ++ [SqlArg.time v]
      argIndex := b.argIndex + 1 }
  | none => b

/-- State of the builder after the first `n` of the five conditionals
(lines 34-58) have run; `n ≥ 5` is the state reaching line 60. -/
def builderAfter (filter : HistoryFilter) : Nat → Builder
  | 0 => Builder.init
  | 1 => Builder.init.withItemID filter
  | 2 => (Builder.init.withItemID filter).withAction filter
  | 3 => ((Builder.init.withItemID filter).withAction filter).withUsername filter
  | 4 => (((Builder.init.withItemID filter).withAction filter).withUsername filter).withDateFrom
           filter
  | _ => ((((Builder.init.withItemID filter).withAction filter).withUsername filter).withDateFrom
           filter).withDateTo filter

/-- Lines 26-61 of `GetHistory`: the query text and the argument list handed
to `QueryWithRetry`. -/
def buildHistoryQuery (filter : HistoryFilter) : String × List SqlArg :=
  let b := builderAfter filter 5
  (b.query ++ orderLimitOffset, b.args ++ [SqlArg.int filter.Limit, SqlArg.int filter.Offset])

/-- The columns of one `items_history` row as `rows.Scan` delivers them on
line 73; `old_data` and `new_data` are the scanned JSON bytes (`none` for NULL). -/
structure HistoryRow where
  id : Int
  item_id : Int
  action : String
  old_data : Option String
  new_data : Option String
  changed_by : String
  changed_at : Time
  deriving DecidableEq, Repr

/-- The part of `*dbpg.DB` that `GetHistory` uses: `QueryWithRetry` answers a
query text and argument list with an error or with rows, each of which scans
successfully or fails with an error. -/
structure HistoryDB where
  QueryWithRetry : String → List SqlArg → Except GoError (List (Except GoError HistoryRow))

/-- Lines 69-79 of `GetHistory`: the `for rows.Next()` loop, `records` being
the slice accumulated so far. -/
def scanHistoryRows :
    List (Except GoError HistoryRow) → List HistoryRecord → Except GoError (List HistoryRecord)
  | [], records => .ok records
  | .error err :: _, _ => .error (fmtErrorf (.sentinel .ErrDatabase) err)
  | .ok row :: rest, records =>
    scanHistoryRows rest (records ++
      [{ ID := row.id, ItemID := row.item_id, Action := row.action, OldData := none,
         NewData := none, ChangedBy := row.changed_by, ChangedAt := row.changed_at }])

/-- Method `HistoryPostgresRepository.GetHistory`. -/
def HistoryPostgresRepository.GetHistory (db : HistoryDB) (filter : HistoryFilter) :
    Except GoError (List HistoryRecord) :=
  match db.QueryWithRetry (buildHistoryQuery filter).1 (buildHistoryQuery filter).2 with
  | .error err => .error (fmtErrorf (.sentinel .ErrDatabase) err)
  | .ok rows => scanHistoryRows rows []

/-- Method `HistoryPostgresRepository.GetHistoryByItemID`. -/
def HistoryPostgresRepository.GetHistoryByItemID (db : HistoryDB) (itemID : Int)
    (limit offset : Int) : Except GoError (List HistoryRecord) :=
  HistoryPostgresRepository.GetHistory db
    { ItemID := some itemID, Action := none, Username := none, DateFrom := none, DateTo := none,
      Limit := limit, Offset := offset }

/-! ## internal/usecase/history -/

/-- Interface `historyRepository` of `internal/usecase/history/contract.go`. -/
structure historyRepository where
  GetHistory : HistoryFilter → Except GoError (List HistoryRecord)
  GetHistoryByItemID : Int → Int → Int → Except GoError (List HistoryRecord)

/-- A call made on the `historyRepository`, with its arguments. -/
inductive HistoryRepoCall where
  | GetHistory (filter : HistoryFilter)
  | GetHistoryByItemID (itemID : Int) (limit offset : Int)
  deriving DecidableEq, Repr

/-- Method `HistoryUsecase.GetHistory`: the repository calls it makes, in
order, and what it returns. -/
def HistoryUsecase.GetHistory (repo : historyRepository) (filter : HistoryFilter) :
    List HistoryRepoCall × Except GoError (List HistoryRecord) :=
  let filter := if filter.Limit ≤ 0 then { filter with Limit := 100 } else filter
  match repo.GetHistory filter with
  | .error err =>
    ([.GetHistory filter],
      if errorsIs err .ErrDatabase then .error (.sentinel .ErrDatabase)
      else .error (fmtErrorf (.sentinel .ErrInternal) err))
  | .ok records => ([.GetHistory filter], .ok records)

/-! ## github.com/go-playground/validator (as used on `domain.Item`) -/

/-- The fields of `domain.Item`. -/
inductive ItemField where
  | ID | Name | SKU | Quantity | Price | Category | Location | CreatedAt | UpdatedAt
  deriving DecidableEq, Repr

/-- A rule of a `validate:"..."` struct tag. -/
inductive Rule where
  | required
  | gte (bound : Int)
  deriving DecidableEq, Repr

/-- The zero `time.Time` (January 1, year 1, 00:00:00 UTC). -/
def Time.zero : Time := ⟨-62135596800 * 1000000000⟩

/-- Whether a field of the item passes a rule: `required` asks for a value
other than the zero value of the field type, `gte=n` for a number at least `n`
(for a string, a length of at least `n`). -/
def Rule.holds (item : Item) : ItemField → Rule → Bool
  | .ID, .required => decide (item.ID ≠ 0)
  | .ID, .gte n => decide (n ≤ item.ID)
  | .Name, .required => decide (item.Name ≠ "")
  | .Name, .gte n => decide (n ≤ (item.Name.length : Int))
  | .SKU, .required => decide (item.SKU ≠ "")
  | .SKU, .gte n => decide (n ≤ (item.SKU.length : Int))
  | .Quantity, .required => decide (item.Quantity ≠ 0)
  | .Quantity, .gte n => decide (n ≤ item.Quantity)
  | .Price, .required => decide (item.Price ≠ 0)
  | .Price, .gte n => decide ((n : Rat) ≤ item.Price)
  | .Category, .required => decide (item.Category ≠ "")
  | .Category, .gte n => decide (n ≤ (item.Category.length : Int))
  | .Location, .required => decide (item.Location ≠ "")
  | .Location, .gte n => decide (n ≤ (item.Location.length : Int))
  | .CreatedAt, .required => decide (item.CreatedAt ≠ Time.zero)
  | .CreatedAt, .gte _ => true
  | .UpdatedAt, .required => decide (item.UpdatedAt ≠ Time.zero)
  | .UpdatedAt, .gte _ => true

/-- Method `(*validator.Validate).Struct` applied to a `*domain.Item`: the
fields are checked against the rules their struct tags declare, and a field
without a tag is not checked; the result is nil when no rule fails. -/
def validateStruct (tags : List (ItemField × Rule)) (item : Item) : Option GoError :=
  if tags.all (fun t => Rule.holds item t.1 t.2) then none
  else some (.foreign "field validation failed")

/-- The `validate` struct tags that `internal/domain/item.go` declares on
`domain.Item`: none of its fields carries one. -/
def Item.validateTags : List (ItemField × Rule) := []

/-! ## internal/usecase/items -/

/-- Interface `itemsRepository` of `internal/usecase/items/contract.go`. -/
structure itemsRepository where
  CreateItem : Item → Except GoError Int
  GetItems : Except GoError (List Item)
  GetItemByID : Int → Except GoError Item
  UpdateItem : Int → Item → Option GoError
  DeleteItem : Int → Option GoError

/-- A call made on the `itemsRepository`, with its arguments. -/
inductive ItemsRepoCall where
  | CreateItem (item : Item)
  | GetItems
  | GetItemByID (id : Int)
  | UpdateItem (id : Int) (item : Item)
  | DeleteItem (id : Int)
  deriving DecidableEq, Repr

/-- Struct `ItemsUsecase` (the logger left out). -/
structure ItemsUsecase where
  repo : itemsRepository
  validate : Item → Option GoError

/-- Function `NewService` of `internal/usecase/items`: `validator.New()`
checks a `domain.Item` against the tags the struct declares. -/
def ItemsUsecase.NewService (repo : itemsRepository) : ItemsUsecase :=
  { repo := repo, validate := validateStruct Item.validateTags }

/-- Method `ItemsUsecase.CreateItem`: the repository calls it makes, in order,
and what it returns. -/
def ItemsUsecase.CreateItem (s : ItemsUsecase) (item : Item) (_username : String) :
    List ItemsRepoCall × Except GoError Int :=
  match s.validate item with
  | some err => ([], .error (fmtErrorf (.sentinel .ErrInvalidInput) err))
  | none =>
    match s.repo.CreateItem item with
    | .error err =>
      ([.CreateItem item],
        if errorsIs err .ErrDatabase then .error (.sentinel .ErrDatabase)
        else .error (fmtErrorf (.sentinel .ErrInternal) err))
    | .ok id => ([.CreateItem item], .ok id)

/-- Method `ItemsUsecase.GetItemByID`. -/
def ItemsUsecase.GetItemByID (s : ItemsUsecase) (id : Int) :
    List ItemsRepoCall × Except GoError Item :=
  if id ≤ 0 then ([], .error (.sentinel .ErrInvalidInput))
  else
    match s.repo.GetItemByID id with
    | .error err =>
      ([.GetItemByID id],
        if errorsIs err .ErrItemNotFound then .error (.sentinel .ErrItemNotFound)
        else if errorsIs err .ErrDatabase then .error (.sentinel .ErrDatabase)
        else .error (fmtErrorf (.sentinel .ErrInternal) err))
    | .ok item => ([.GetItemByID id], .ok item)

/-- Method `ItemsUsecase.UpdateItem`; the result is the returned error, `none`
being nil. -/
def ItemsUsecase.UpdateItem (s : ItemsUsecase) (id : Int) (item : Item) (_username : String) :
    List ItemsRepoCall × Option GoError :=
  if id ≤ 0 then ([], some (.sentinel .ErrInvalidInput))
  else
    match s.validate item with
    | some err => ([], some (fmtErrorf (.sentinel .ErrInvalidInput) err))
    | none =>
      match s.repo.UpdateItem id item with
      | some err =>
        ([.UpdateItem id item],
          if errorsIs err .ErrItemNotFound then some (.sentinel .ErrItemNotFound)
          else if errorsIs err .ErrDatabase then some (.sentinel .ErrDatabase)
          else some (fmtErrorf (.sentinel .ErrInternal) err))
      | none => ([.UpdateItem id item], none)

/-- Method `ItemsUsecase.DeleteItem`. -/
def ItemsUsecase.DeleteItem (s : ItemsUsecase) (id : Int) (_username : String) :
    List ItemsRepoCall × Option GoError :=
  if id ≤ 0 then ([], some (.sentinel .ErrInvalidInput))
  else
    match s.repo.DeleteItem id with
    | some err =>
      ([.DeleteItem id],
        if errorsIs err .ErrItemNotFound then some (.sentinel .ErrItemNotFound)
        else if errorsIs err .ErrDatabase then some (.sentinel .ErrDatabase)
        else some (fmtErrorf (.sentinel .ErrInternal) err))
    | none => ([.DeleteItem id], none)

/-- Method `ItemsUsecase.GetItems`. -/
def ItemsUsecase.GetItems (s : ItemsUsecase) : List ItemsRepoCall × Except GoError (List Item) :=
  match s.repo.GetItems with
  | .error err =>
    ([.GetItems],
      if errorsIs err .ErrDatabase then .error (.sentinel .ErrDatabase)
      else .error (fmtErrorf (.sentinel .ErrInternal) err))
  | .ok items => ([.GetItems], .ok items)

/-! ## internal/http-server/middleware -/

/-- The fields of `jwt.RegisteredClaims` that this code base sets. -/
structure RegisteredClaims where
  ExpiresAt : Option Time
  IssuedAt : Option Time
  deriving DecidableEq, Repr

/-- Struct `middleware.Claims`. -/
structure Claims where
  UserID : Int
  Username : String
  Role : UserRole
  Registered : RegisteredClaims
  deriving DecidableEq, Repr

/-- What the request context holds under `UserContextKey`: nothing, a
`*Claims` (which may be a nil pointer), or a value of another type. -/
inductive ContextValue where
  | absent
  | claims (c : Option Claims)
  | other
  deriving DecidableEq, Repr

/-- The parts of `*http.Request` the middleware reads: the `Authorization`
header and the context value under `UserContextKey`. -/
structure Request where
  Authorization : String
  user : ContextValue
  deriving DecidableEq, Repr

/-- What a middleware does with a request: answer with
`http.Error(w, msg, code)` and return, or call `next.ServeHTTP(w, r)` once
with the request `r`. -/
inductive Outcome where
  | httpError (msg : String) (code : Nat)
  | next (r : Request)
  deriving DecidableEq, Repr

/-- Lines 94-100 of `RequireRole`: the loop over `roles` with its `break`;
the result is the final value of `allowed`. -/
def roleAllowed (claimsRole : UserRole) : List UserRole → Bool
  | [] => false
  | role :: rest => if claimsRole = role then true else roleAllowed claimsRole rest

/-- Method `AuthMiddleware.RequireRole(roles...)`, applied to a request. -/
def AuthMiddleware.RequireRole (roles : List UserRole) (r : Request) : Outcome :=
  match r.user with
  | .claims (some claims) =>
    let allowed := roleAllowed claims.Role roles
    if !allowed then .httpError "forbidden" 403
    else .next r
  | _ => .httpError "unauthorized" 401

/-- Function `GetClaimsFromContext`. -/
def GetClaimsFromContext (r : Request) : Option Claims :=
  match r.user with
  | .claims c => c
  | _ => none

/-! ## internal/http-server/handler/items -/

/-- Struct `dto.UpdateItemRequest`; `Quantity` and `Price` are pointers. -/
structure UpdateItemRequest where
  Name : String
  SKU : String
  Quantity : Option Int
  Price : Option Rat
  Category : String
  Location : String
  deriving DecidableEq, Repr

/-- Interface `itemsUsecase` of `internal/http-server/handler/items/contract.go`.
Each method also yields the events (of some type `ε`) that the call caused, so
that a handler can be observed through the calls it makes. -/
structure itemsUsecase (ε : Type) where
  CreateItem : Item → String → List ε × Except GoError Int
  GetItems : List ε × Except GoError (List Item)
  GetItemByID : Int → List ε × Except GoError Item
  UpdateItem : Int → Item → String → List ε × Option GoError
  DeleteItem : Int → String → List ε × Option GoError

/-- The `*ItemsUsecase` as the handler sees it, observed through its
repository calls. -/
def ItemsUsecase.toHandlerUsecase (s : ItemsUsecase) : itemsUsecase ItemsRepoCall :=
  { CreateItem := s.CreateItem
    GetItems := s.GetItems
    GetItemByID := s.GetItemByID
    UpdateItem := s.UpdateItem
    DeleteItem := s.DeleteItem }

/-- What a handler writes to the `http.ResponseWriter`: `http.Error(w, msg,
code)` or a bare `w.WriteHeader(code)`. -/
inductive Response where
  | httpError (msg : String) (code : Nat)
  | writeHeader (code : Nat)
  deriving DecidableEq, Repr

/-- Method `ItemsHandler.writeError`. -/
def ItemsHandler.writeError (err : GoError) : Response :=
  if errorsIs err .ErrInvalidInput then .httpError "invalid_input" 400
  else if errorsIs err .ErrItemNotFound then .httpError "not_found" 404
  else if errorsIs err .ErrForbidden then .httpError "forbidden" 403
  else if errorsIs err .ErrDatabase then .httpError "database_error" 500
  else .httpError "internal_error" 500

/-- Lines 136-153 of `ItemsHandler.UpdateItem`: the six conditional
assignments to the fetched item, in source order. -/
def mergeUpdate (item : Item) (req : UpdateItemRequest) : Item :=
  let item := if req.Name ≠ "" then { item with Name := req.Name } else item
  let item := if req.SKU ≠ "" then { item with SKU := req.SKU } else item
  let item := match req.Quantity with
    | some q => { item with Quantity := q }
    | none => item
  let item := match req.Price with
    | some p => { item with Price := p }
    | none => item
  let item := if req.Category ≠ "" then { item with Category := req.Category } else item
  let item := if req.Location ≠ "" then { item with Location := req.Location } else item
  item

/-- Method `ItemsHandler.UpdateItem`.  `r` carries the request context, `id`
is the result of `strconv.ParseInt(chi.URLParam(r, "id"), 10, 64)` (`none`
when it returns an error) and `body` the result of decoding the JSON body
(`none` when `Decode` returns an error).  The result is the events of the
usecase calls made, in order, and the response written. -/
def ItemsHandler.UpdateItem {ε : Type} (uc : itemsUsecase ε) (r : Request) (id : Option Int)
    (body : Option UpdateItemRequest) : List ε × Response :=
  match GetClaimsFromContext r with
  | none => ([], ItemsHandler.writeError (.sentinel .ErrUnauthorized))
  | some claims =>
    match id with
    | none => ([], ItemsHandler.writeError (.sentinel .ErrInvalidInput))
    | some id =>
      if id ≤ 0 then ([], ItemsHandler.writeError (.sentinel .ErrInvalidInput))
      else
        match body with
        | none => ([], ItemsHandler.writeError (.sentinel .ErrInvalidInput))
        | some req =>
          match uc.GetItemByID id with
          | (t1, .error err) => (t1, ItemsHandler.writeError err)
          | (t1, .ok item) =>
            match uc.UpdateItem id (mergeUpdate item req) claims.Username with
            | (t2, some err) => (t1 ++ t2, ItemsHandler.writeError err)
            | (t2, none) => (t1 ++ t2, .writeHeader 200)

/-! ## internal/domain (users) -/

/-- Struct `domain.User` of `internal/domain/user.go`. -/
structure User where
  ID : Int
  Username : String
  PasswordHash : String
  Role : UserRole
  CreatedAt : Time
  UpdatedAt : Time
  deriving DecidableEq, Repr

/-! ## The token library (github.com/golang-jwt/jwt), as the specification describes it -/

/-- Modelled from the spec: the signing methods of the token library, which is
not part of the sources.  The specification tells them apart only by whether
they belong to the symmetric MAC family. -/
inductive SigningMethod where
  | HS256 | HS384 | HS512 | RS256 | ES256 | none
  deriving DecidableEq, Repr

/-- Modelled from the spec: the type assertion
`token.Method.(*jwt.SigningMethodHMAC)`, true for the symmetric MAC family. -/
def SigningMethod.isHMAC : SigningMethod → Bool
  | .HS256 | .HS384 | .HS512 => true
  | _ => false

/-- Modelled from the spec: the MAC tag of a token ("signs the claim set with a
symmetric MAC keyed by `secret`").  The tag is symbolic: it records the method,
the key and the claim set it was computed over, so that recomputing it with a
key gives the same tag exactly when method, key and claim set are the same. -/
structure Signature where
  alg : SigningMethod
  key : String
  payload : Claims
  deriving DecidableEq, Repr

/-- Modelled from the spec: the content of a compact token string: the
advertised signing method, the claim set and the MAC tag. -/
structure SignedToken where
  Method : SigningMethod
  Claims : Claims
  Signature : Signature
  deriving DecidableEq, Repr

/-- Modelled from the spec: the `*jwt.Token` that `jwt.ParseWithClaims`
returns without an error, with its `Valid` flag and the claims it filled in. -/
structure ParsedToken where
  Method : SigningMethod
  Claims : Claims
  Valid : Bool
  deriving DecidableEq, Repr

/-- Modelled from the spec: `jwt.NewWithClaims(method, claims)` followed by
`token.SignedString(key)` for a byte-string key.  `encode` is the compact
serialisation of the library.  A method outside the MAC family does not accept
a byte-string key. -/
def SignedString (encode : SignedToken → String) (method : SigningMethod) (claims : Claims)
    (key : String) : Except GoError String :=
  if method.isHMAC then
    .ok (encode { Method := method, Claims := claims, Signature := ⟨method, key, claims⟩ })
  else .error (.foreign "key is of invalid type")

/-- Modelled from the spec: `jwt.ParseWithClaims(tokenString, claims, keyFunc)`
read at the instant `now`; `decode` is the inverse of the compact serialisation
(`none` for a string that is no token).  In the order of the library: a string
with a space is no compact token; the key function is asked for the key of the
advertised method; the signature is recomputed over the claim set with that
key and compared; the token is expired when `now` is at or past expires-at. -/
def ParseWithClaims (decode : String → Option SignedToken) (now : Time) (tokenString : String)
    (keyFunc : SigningMethod → Except GoError String) : Except GoError ParsedToken :=
  if ' ' ∈ tokenString.data then .error (.foreign "token is malformed")
  else
    match decode tokenString with
    | none => .error (.foreign "token is malformed")
    | some tok =>
      match keyFunc tok.Method with
      | .error e => .error (.errorf (.foreign "token is unverifiable") e.Error)
      | .ok key =>
        if tok.Signature ≠ ⟨tok.Method, key, tok.Claims⟩ then
          .error (.foreign "signature is invalid")
        else
          match tok.Claims.Registered.ExpiresAt with
          | some exp =>
            if now.unixNano < exp.unixNano then
              .ok { Method := tok.Method, Claims := tok.Claims, Valid := true }
            else .error (.foreign "token is expired")
          | none => .ok { Method := tok.Method, Claims := tok.Claims, Valid := true }

/-- Function `jwt.NewNumericDate`: the instant truncated to the precision of
the library, one second. -/
def NewNumericDate (t : Time) : Time := ⟨t.unixNano - t.unixNano % 1000000000⟩

/-! ## Standard library: durations, `strings.Split` -/

/-- Constant `time.Hour`, in nanoseconds. -/
def timeHour : Int := 3600000000000

/-- Wrap-around of a signed 64-bit integer operation. -/
def wrapInt64 (x : Int) : Int := (x + 2 ^ 63) % 2 ^ 64 - 2 ^ 63

/-- Method `Time.Add` for a duration in nanoseconds. -/
def Time.Add (t : Time) (d : Int) : Time := ⟨t.unixNano + d⟩

/-- Splitting a list of characters at every occurrence of `sep`; the pieces
between separators are kept, empty ones included. -/
def splitChars (sep : Char) : List Char → List (List Char)
  | [] => [[]]
  | c :: cs =>
    if c = sep then [] :: splitChars sep cs
    else
      match splitChars sep cs with
      | [] => [[c]]
      | p :: ps => (c :: p) :: ps

/-- Call `strings.Split(s, sep)` for a separator of one character. -/
def stringsSplit (s : String) (sep : Char) : List String :=
  (splitChars sep s.data).map String.mk

/-! ## internal/http-server/middleware (token validation) -/

/-- Struct `AuthMiddleware` (the logger left out). -/
structure AuthMiddleware where
  secret : String
  deriving DecidableEq, Repr

/-- The key function that `validateToken` passes to the library (lines 71-76). -/
def AuthMiddleware.keyFunc (m : AuthMiddleware) (method : SigningMethod) : Except GoError String :=
  if !method.isHMAC then .error (.sentinel .ErrTokenInvalid)
  else .ok m.secret

/-- Method `AuthMiddleware.validateToken`; `decode` and `now` are the
serialisation and the clock reading of the token library. -/
def AuthMiddleware.validateToken (m : AuthMiddleware) (decode : String → Option SignedToken)
    (now : Time) (tokenString : String) : Except GoError Claims :=
  match ParseWithClaims decode now tokenString m.keyFunc with
  | .error _ => .error (.sentinel .ErrTokenInvalid)
  | .ok token =>
    if !token.Valid then .error (.sentinel .ErrTokenInvalid)
    else .ok token.Claims

/-- Method `AuthMiddleware.Middleware`, applied to a request. -/
def AuthMiddleware.Middleware (m : AuthMiddleware) (decode : String → Option SignedToken)
    (now : Time) (r : Request) : Outcome :=
  let authHeader := r.Authorization
  if authHeader = "" then .httpError "unauthorized" 401
  else
    let parts := stringsSplit authHeader ' '
    if parts.length ≠ 2 ∨ parts[0]? ≠ some "Bearer" then .httpError "unauthorized" 401
    else
      let tokenString := parts.getD 1 ""
      match m.validateToken decode now tokenString with
      | .error _ => .httpError "unauthorized" 401
      | .ok claims => .next { r with user := .claims (some claims) }

/-! ## internal/usecase/auth -/

/-- Interface `usersRepository` of `internal/usecase/auth/contract.go`. -/
structure usersRepository where
  GetUserByUsername : String → Except GoError User
  GetUsers : Except GoError (List User)

/-- A call made on the `usersRepository`, with its arguments. -/
inductive UsersRepoCall where
  | GetUserByUsername (username : String)
  | GetUsers
  deriving DecidableEq, Repr

/-- Method `AuthUsecase.Authenticate`: the repository calls it makes, in
order, and what it returns.  `compareHashAndPassword` is
`bcrypt.CompareHashAndPassword` on the stored hash and the candidate password,
nil (`none`) on a match. -/
def AuthUsecase.Authenticate (repo : usersRepository)
    (compareHashAndPassword : String → String → Option GoError) (username password : String) :
    List UsersRepoCall × Except GoError User :=
  if username = "" ∨ password = "" then ([], .error (.sentinel .ErrInvalidCredentials))
  else
    match repo.GetUserByUsername username with
    | .error err =>
      ([.GetUserByUsername username],
        if errorsIs err .ErrUserNotFound then .error (.sentinel .ErrInvalidCredentials)
        else if errorsIs err .ErrDatabase then .error (.sentinel .ErrDatabase)
        else .error (fmtErrorf (.sentinel .ErrInternal) err))
    | .ok user =>
      match compareHashAndPassword user.PasswordHash password with
      | some _ => ([.GetUserByUsername username], .error (.sentinel .ErrInvalidCredentials))
      | none => ([.GetUserByUsername username], .ok user)

/-! ## internal/http-server/handler/auth -/

/-- Interface `authUsecase` of `internal/http-server/handler/auth/contract.go`
(the method `Login` uses). -/
structure authUsecase where
  Authenticate : String → String → Except GoError User

/-- Struct `AuthHandler` (the logger left out). -/
structure AuthHandler where
  authUsecase : authUsecase
  jwtSecret : String
  jwtExpHours : Int

/-- Function `NewHandler` of `internal/http-server/handler/auth`. -/
def AuthHandler.NewHandler (authUsecase : WarehouseControl.authUsecase) (jwtSecret : String)
    (jwtExpHours : Int) : AuthHandler :=
  { authUsecase := authUsecase, jwtSecret := jwtSecret, jwtExpHours := jwtExpHours }

/-- Struct `dto.LoginRequest`. -/
structure LoginRequest where
  Username : String
  Password : String
  deriving DecidableEq, Repr

/-- Struct `dto.UserClaim`. -/
structure UserClaim where
  UserID : Int
  Username : String
  Role : String
  deriving DecidableEq, Repr

/-- Struct `dto.LoginResponse`. -/
structure LoginResponse where
  Token : String
  ExpiresAt : Time
  User : UserClaim
  deriving DecidableEq, Repr

/-- What `Login` writes: `http.Error(w, msg, code)` or the JSON encoding of a
`LoginResponse`. -/
inductive LoginResult where
  | httpError (msg : String) (code : Nat)
  | json (resp : LoginResponse)
  deriving DecidableEq, Repr

/-- Line 48 of `Login`: `time.Now().Add(time.Duration(h.jwtExpHours) * time.Hour)`
for the clock reading `now`; the product is a 64-bit multiplication. -/
def AuthHandler.expiresAt (h : AuthHandler) (now : Time) : Time :=
  now.Add (wrapInt64 (h.jwtExpHours * timeHour))

/-- Lines 48-57 of `Login`: the claims put into the token; `now1` is the clock
reading of line 48 and `now2` the clock reading of line 55. -/
def AuthHandler.loginClaims (h : AuthHandler) (user : User) (now1 now2 : Time) : Claims :=
  { UserID := user.ID
    Username := user.Username
    Role := user.Role
    Registered :=
      { ExpiresAt := some (NewNumericDate (h.expiresAt now1))
        IssuedAt := some (NewNumericDate now2) } }

/-- Method `AuthHandler.Login`.  `body` is the result of decoding the JSON body
(`none` when `Decode` returns an error), `now1` and `now2` are the two
successive readings of `time.Now()`, `encode` the compact serialisation of the
token library. -/
def AuthHandler.Login (h : AuthHandler) (encode : SignedToken → String) (now1 now2 : Time)
    (body : Option LoginRequest) : LoginResult :=
  match body with
  | none => .httpError "invalid_input" 400
  | some req =>
    if req.Username = "" ∨ req.Password = "" then .httpError "invalid_input" 400
    else
      match h.authUsecase.Authenticate req.Username req.Password with
      | .error _ => .httpError "invalid_credentials" 401
      | .ok user =>
        match SignedString encode .HS256 (h.loginClaims user now1 now2) h.jwtSecret with
        | .error _ => .httpError "internal_error" 500
        | .ok tokenString =>
          .json
            { Token := tokenString
              ExpiresAt := h.expiresAt now1
              User := { UserID := user.ID, Username := user.Username, Role := user.Role } }

/-- The token that `Login` signs on lines 58-59: method HS256, the claims of
lines 48-57, and the MAC tag under the secret of the handler. -/
def AuthHandler.loginToken (h : AuthHandler) (user : User) (now1 now2 : Time) : SignedToken :=
  { Method := .HS256
    Claims := h.loginClaims user now1 now2
    Signature := ⟨.HS256, h.jwtSecret, h.loginClaims user now1 now2⟩ }

/-! ## Reference definitions used to state the properties -/

/-- The optional predicates a filter asks for, in declaration order: for each
non-nil optional field the comparison it stands for and the value to bind. -/
def optionalPredicates (filter : HistoryFilter) : List (String × SqlArg) :=
  (filter.ItemID.map (fun v => ("item_id =", SqlArg.int64 v))).toList ++
  (filter.Action.map (fun v => ("action =", SqlArg.string v))).toList ++
  (filter.Username.map (fun v => ("changed_by =", SqlArg.string v))).toList ++
  (filter.DateFrom.map (fun v => ("changed_at >=", SqlArg.time v))).toList ++
  (filter.DateTo.map (fun v => ("changed_at <=", SqlArg.time v))).toList

/-- Number `k` of non-nil optional fields of a filter. -/
def presentCount (filter : HistoryFilter) : Nat :=
  filter.ItemID.isSome.toNat + filter.Action.isSome.toNat + filter.Username.isSome.toNat +
    filter.DateFrom.isSome.toNat + filter.DateTo.isSome.toNat

/-- Scanner behind `placeholders`: `st` is `none` outside a placeholder,
`some none` right after a dollar sign, `some (some n)` while reading the
digits of the placeholder number `n`. -/
def scanPlaceholders : List Char → Option (Option Nat) → List Nat
  | [], some (some n) => [n]
  | [], _ => []
  | c :: cs, some (some n) =>
    if c.isDigit then scanPlaceholders cs (some (some (n * 10 + (c.toNat - 48))))
    else n :: scanPlaceholders cs (if c = '$' then some none else none)
  | c :: cs, some none =>
    if c.isDigit then scanPlaceholders cs (some (some (c.toNat - 48)))
    else scanPlaceholders cs (if c = '$' then some none else none)
  | c :: cs, none => scanPlaceholders cs (if c = '$' then some none else none)

/-- The positional placeholders `$i` occurring in a query text, left to right. -/
def placeholders (query : String) : List Nat := scanPlaceholders query.data none

/-- The "set if present" merge as the specification words it: each mutable
field takes the value of the patch when the patch carries one (a non-empty
string, a non-nil number) and keeps the existing value otherwise; the identity
and the timestamps are the existing ones. -/
def mergeSpec (existing : Item) (patch : UpdateItemRequest) : Item :=
  { ID := existing.ID
    Name := if patch.Name = "" then existing.Name else patch.Name
    SKU := if patch.SKU = "" then existing.SKU else patch.SKU
    Quantity := patch.Quantity.getD existing.Quantity
    Price := patch.Price.getD existing.Price
    Category := if patch.Category = "" then existing.Category else patch.Category
    Location := if patch.Location = "" then existing.Location else patch.Location
    CreatedAt := existing.CreatedAt
    UpdatedAt := existing.UpdatedAt }

/-- The patch that supplies no field. -/
def emptyPatch : UpdateItemRequest :=
  { Name := "", SKU := "", Quantity := none, Price := none, Category := "", Location := "" }

/-- The filter of the specification example: item id 7, limit 10, offset 0. -/
def itemSevenFilter : HistoryFilter :=
  { ItemID := some 7, Action := none, Username := none, DateFrom := none, DateTo := none,
    Limit := 10, Offset := 0 }

/-- An item that breaks all four structural rules: empty name, empty SKU,
quantity -1, price -1. -/
def invalidItem : Item :=
  { ID := 0, Name := "", SKU := "", Quantity := -1, Price := -1, Category := "", Location := "",
    CreatedAt := Time.zero, UpdatedAt := Time.zero }

/-- An existing item used in examples. -/
def boltItem : Item :=
  { ID := 1, Name := "Bolt", SKU := "B-1", Quantity := 5, Price := 2, Category := "hardware",
    Location := "A1", CreatedAt := ⟨0⟩, UpdatedAt := ⟨0⟩ }

/-- A repository that holds `boltItem` under every id and accepts every
write. -/
def boltRepo : itemsRepository :=
  { CreateItem := fun _ => .ok 1
    GetItems := .ok [boltItem]
    GetItemByID := fun _ => .ok boltItem
    UpdateItem := fun _ _ => none
    DeleteItem := fun _ => none }

/-- Claims of an administrator used in examples. -/
def adminClaims : Claims :=
  { UserID := 1, Username := "admin", Role := RoleAdmin, Registered := ⟨none, none⟩ }

/-- A decoder of compact token strings that knows the single string `s0`, the
serialisation of `tok`. -/
def singleTokenDecode (s0 : String) (tok : SignedToken) (s : String) : Option SignedToken :=
  if s = s0 then some tok else none

/-- A stored user used in examples. -/
def adminUser : User :=
  { ID := 1, Username := "admin", PasswordHash := "hash", Role := RoleAdmin,
    CreatedAt := ⟨0⟩, UpdatedAt := ⟨0⟩ }

/-- An auth usecase that authenticates every request as `adminUser`. -/
def adminAuthUsecase : authUsecase :=
  { Authenticate := fun _ _ => .ok adminUser }

/-- The pairs of message and status that `writeError` can write. -/
def errorResponses : List Response :=
  [.httpError "invalid_input" 400, .httpError "not_found" 404, .httpError "forbidden" 403,
   .httpError "database_error" 500, .httpError "internal_error" 500]

/-- The error a usecase of the items package returns for a repository error
`e`, as the propagation policy words it: the not-found sentinel if `e` wraps
it, otherwise the database sentinel if `e` wraps it, otherwise an error
wrapping the internal sentinel. -/
def propagated (e : GoError) : GoError :=
  if errorsIs e .ErrItemNotFound then .sentinel .ErrItemNotFound
  else if errorsIs e .ErrDatabase then .sentinel .ErrDatabase
  else fmtErrorf (.sentinel .ErrInternal) e

/-- A token with the claims `c`, signed with method `method` under `key`. -/
def signedWith (method : SigningMethod) (c : Claims) (key : String) : SignedToken :=
  { Method := method, Claims := c, Signature := ⟨method, key, c⟩ }

/-- Claims of `adminUser` that expire one second after the epoch. -/
def expiringClaims : Claims :=
  { UserID := 1, Username := "admin", Role := RoleAdmin,
    Registered := { ExpiresAt := some ⟨1000000000⟩, IssuedAt := some ⟨0⟩ } }

/-- A history database with one row of an update, both snapshots present. -/
def oneRowDB : HistoryDB :=
  { QueryWithRetry := fun _ _ =>
      .ok [.ok { id := 1, item_id := 7, action := "update", old_data := some "old snapshot",
                 new_data := some "new snapshot", changed_by := "admin", changed_at := ⟨0⟩ }] }

/-! ## The history query builder -/

/-- Each conditional step keeps the slot counter one ahead of the argument
list (item id step). -/
theorem lockstep_withItemID (b : Builder) (f : HistoryFilter)
    (h : b.argIndex = b.args.length + 1) :
    (b.withItemID f).argIndex = (b.withItemID f).args.length + 1 := by
  unfold Builder.withItemID
  cases f.ItemID <;> simp [h]

/-- Each conditional step keeps the slot counter one ahead of the argument
list (action step). -/
theorem lockstep_withAction (b : Builder) (f : HistoryFilter)
    (h : b.argIndex = b.args.length + 1) :
    (b.withAction f).argIndex = (b.withAction f).args.length + 1 := by
  unfold Builder.withAction
  cases f.Action <;> simp [h]

/-- Each conditional step keeps the slot counter one ahead of the argument
list (actor step). -/
theorem lockstep_withUsername (b : Builder) (f : HistoryFilter)
    (h : b.argIndex = b.args.length + 1) :
    (b.withUsername f).argIndex = (b.withUsername f).args.length + 1 := by
  unfold Builder.withUsername
  cases f.Username <;> simp [h]

/-- Each conditional step keeps the slot counter one ahead of the argument
list (date-from step). -/
theorem lockstep_withDateFrom (b : Builder) (f : HistoryFilter)
    (h : b.argIndex = b.args.length + 1) :
    (b.withDateFrom f).argIndex = (b.withDateFrom f).args.length + 1 := by
  unfold Builder.withDateFrom
  cases f.DateFrom <;> simp [h]

/-- Each conditional step keeps the slot counter one ahead of the argument
list (date-to step). -/
theorem lockstep_withDateTo (b : Builder) (f : HistoryFilter)
    (h : b.argIndex = b.args.length + 1) :
    (b.withDateTo f).argIndex = (b.withDateTo f).args.length + 1 := by
  unfold Builder.withDateTo
  cases f.DateTo <;> simp [h]

/-- The state before the first conditional has the counter at 1 and no
arguments. -/
theorem lockstep_init : Builder.init.argIndex = Builder.init.args.length + 1 := rfl

/-- The argument list of the builder after all five conditionals is the list
of values of the optional predicates. -/
theorem builderAfter_args (f : HistoryFilter) :
    (builderAfter f 5).args = (optionalPredicates f).map Prod.snd := by
  obtain ⟨i, a, u, df, dt, l, o⟩ := f
  cases i <;> cases a <;> cases u <;> cases df <;> cases dt <;> rfl

/-- The query text of the builder after all five conditionals is the base
text followed by one clause per optional predicate, the N-th one carrying the
placeholder with number N. -/
theorem builderAfter_query (f : HistoryFilter) :
    (builderAfter f 5).query = baseQuery ++ String.join
      ((optionalPredicates f).enum.map
        (fun p => " AND " ++ p.2.1 ++ " $" ++ toString (p.1 + 1))) := by
  obtain ⟨i, a, u, df, dt, l, o⟩ := f
  cases i <;> cases a <;> cases u <;> cases df <;> cases dt <;> rfl

/-- The number of optional predicates is the number of non-nil optional
fields. -/
theorem optionalPredicates_length (f : HistoryFilter) :
    (optionalPredicates f).length = presentCount f := by
  obtain ⟨i, a, u, df, dt, l, o⟩ := f
  cases i <;> cases a <;> cases u <;> cases df <;> cases dt <;> rfl

/-- C1, evaluated on the code: for every filter the query text ends with the
fixed text `LIMIT $1 OFFSET $2`; for the filter with item id 7, limit 10 and
offset 0 (one optional field, k = 1) the text is the base followed by
`AND item_id = $1 ORDER BY changed_at DESC LIMIT $1 OFFSET $2`, it does not end
with `LIMIT $2 OFFSET $3`, the arguments are 7, 10, 0, and the placeholders in
the text are 1, 1, 2: the limit placeholder names the slot of the item id and
the third argument is referenced by no placeholder. -/
theorem GetHistory_limit_offset_placeholders_fixed :
    (∀ f : HistoryFilter, ∃ p : String,
      (buildHistoryQuery f).1 = p ++ " ORDER BY changed_at DESC LIMIT $1 OFFSET $2") ∧
    presentCount itemSevenFilter = 1 ∧
    (buildHistoryQuery itemSevenFilter).1 =
      baseQuery ++ " AND item_id = $1 ORDER BY changed_at DESC LIMIT $1 OFFSET $2" ∧
    (buildHistoryQuery itemSevenFilter).2 = [SqlArg.int64 7, SqlArg.int 10, SqlArg.int 0] ∧
    ¬ (" ORDER BY changed_at DESC LIMIT $2 OFFSET $3".data <:+
        (buildHistoryQuery itemSevenFilter).1.data) ∧
    placeholders (buildHistoryQuery itemSevenFilter).1 = [1, 1, 2] := by
  refine ⟨fun f => ⟨(builderAfter f 5).query, rfl⟩, rfl, rfl, rfl, by decide, rfl⟩

/-- C2: the argument list is the values of the non-nil optional fields in the
order item id, action, actor, date-from, date-to, followed by the limit and
the offset of the filter unchanged; its length is k + 2; for the filter with
item id 7, limit 10, offset 0 it is 7, 10, 0 and the query text is the base
followed by the single predicate on item_id and the order/limit/offset text. -/
theorem GetHistory_args (f : HistoryFilter) :
    (buildHistoryQuery f).2 =
      (f.ItemID.map SqlArg.int64).toList ++ (f.Action.map SqlArg.string).toList ++
      (f.Username.map SqlArg.string).toList ++ (f.DateFrom.map SqlArg.time).toList ++
      (f.DateTo.map SqlArg.time).toList ++ [SqlArg.int f.Limit, SqlArg.int f.Offset] ∧
    (buildHistoryQuery f).2.length = presentCount f + 2 ∧
    (buildHistoryQuery itemSevenFilter).2 = [SqlArg.int64 7, SqlArg.int 10, SqlArg.int 0] ∧
    (optionalPredicates itemSevenFilter).map Prod.fst = ["item_id ="] ∧
    (buildHistoryQuery itemSevenFilter).1 =
      baseQuery ++ " AND item_id = $1" ++ orderLimitOffset := by
  refine ⟨?_, ?_, rfl, rfl, rfl⟩
  · obtain ⟨i, a, u, df, dt, l, o⟩ := f
    cases i <;> cases a <;> cases u <;> cases df <;> cases dt <;> rfl
  · obtain ⟨i, a, u, df, dt, l, o⟩ := f
    cases i <;> cases a <;> cases u <;> cases df <;> cases dt <;> rfl

/-- C3: after each of the optional-predicate steps the slot counter equals the
length of the argument list plus one; the query text handed to the driver is
the base text, then one clause per non-nil optional field in declaration
order, the N-th clause carrying the placeholder with number N, then the
order/limit/offset text; and the N-th argument is the value of the field the
N-th clause tests. -/
theorem GetHistory_slot_counter_lockstep (f : HistoryFilter) :
    (∀ n, (builderAfter f n).argIndex = (builderAfter f n).args.length + 1) ∧
    (buildHistoryQuery f).1 = baseQuery ++ String.join
      ((optionalPredicates f).enum.map
        (fun p => " AND " ++ p.2.1 ++ " $" ++ toString (p.1 + 1))) ++ orderLimitOffset ∧
    (∀ N (h : N < (optionalPredicates f).length),
      (buildHistoryQuery f).2[N]? = some ((optionalPredicates f).get ⟨N, h⟩).2) := by
  refine ⟨?_, ?_, ?_⟩
  · intro n
    have h0 := lockstep_init
    have h1 := lockstep_withItemID _ f h0
    have h2 := lockstep_withAction _ f h1
    have h3 := lockstep_withUsername _ f h2
    have h4 := lockstep_withDateFrom _ f h3
    have h5 := lockstep_withDateTo _ f h4
    match n with
    | 0 => exact h0
    | 1 => exact h1
    | 2 => exact h2
    | 3 => exact h3
    | 4 => exact h4
    | k + 5 => exact h5
  · show (builderAfter f 5).query ++ orderLimitOffset = _
    rw [builderAfter_query]
  · intro N h
    show ((builderAfter f 5).args ++ _)[N]? = _
    rw [builderAfter_args, List.getElem?_append_left (by simpa using h)]
    simp [List.getElem?_map, List.getElem?_eq_getElem h]

/-- Witness for C3 on the filter with item id 7: the first argument is the
item id that the first clause tests. -/
theorem GetHistory_slot_counter_lockstep_witness :
    0 < (optionalPredicates itemSevenFilter).length ∧
    (buildHistoryQuery itemSevenFilter).2[0]? = some (SqlArg.int64 7) :=
  ⟨by decide, (GetHistory_slot_counter_lockstep itemSevenFilter).2.2 0 (by decide)⟩

/-- C4: with all five optional fields nil the query text is the base text
directly followed by the order/limit/offset text, the arguments are the limit
and the offset, the placeholders in the text are 1 and 2, every placeholder
refers to an existing argument, and slots 1 and 2 hold the limit and the
offset. -/
theorem GetHistory_no_optional_predicates (limit offset : Int) :
    (buildHistoryQuery ⟨none, none, none, none, none, limit, offset⟩).1 =
      baseQuery ++ " ORDER BY changed_at DESC LIMIT $1 OFFSET $2" ∧
    optionalPredicates ⟨none, none, none, none, none, limit, offset⟩ = [] ∧
    (buildHistoryQuery ⟨none, none, none, none, none, limit, offset⟩).2 =
      [SqlArg.int limit, SqlArg.int offset] ∧
    placeholders (buildHistoryQuery ⟨none, none, none, none, none, limit, offset⟩).1 = [1, 2] ∧
    (∀ i ∈ placeholders (buildHistoryQuery ⟨none, none, none, none, none, limit, offset⟩).1,
      1 ≤ i ∧ i ≤ (buildHistoryQuery ⟨none, none, none, none, none, limit, offset⟩).2.length) ∧
    (buildHistoryQuery ⟨none, none, none, none, none, limit, offset⟩).2[1 - 1]? =
      some (SqlArg.int limit) ∧
    (buildHistoryQuery ⟨none, none, none, none, none, limit, offset⟩).2[2 - 1]? =
      some (SqlArg.int offset) := by
  refine ⟨rfl, rfl, rfl, rfl, ?_, rfl, rfl⟩
  have hp : placeholders (buildHistoryQuery ⟨none, none, none, none, none, limit, offset⟩).1
      = [1, 2] := rfl
  intro i hi
  rw [hp] at hi
  have hl : (buildHistoryQuery ⟨none, none, none, none, none, limit, offset⟩).2.length = 2 := rfl
  rw [hl]
  simp at hi
  omega

/-- Witness for C4 with limit 10 and offset 0: placeholder 2 occurs in the
text and refers to an existing argument. -/
theorem GetHistory_no_optional_predicates_witness :
    2 ∈ placeholders (buildHistoryQuery ⟨none, none, none, none, none, 10, 0⟩).1 ∧
    (1 ≤ 2 ∧ 2 ≤ (buildHistoryQuery ⟨none, none, none, none, none, 10, 0⟩).2.length) :=
  ⟨by decide, (GetHistory_no_optional_predicates 10 0).2.2.2.2.1 2 (by decide)⟩

/-! ## The history usecase -/

/-- C5: the usecase makes exactly one repository call; the filter it passes
has limit 100 when the given limit is at most 0 and the given limit otherwise,
and every other field as given. -/
theorem HistoryUsecase_GetHistory_normalises_limit (repo : historyRepository)
    (f : HistoryFilter) :
    ∃ g : HistoryFilter, (HistoryUsecase.GetHistory repo f).1 = [HistoryRepoCall.GetHistory g] ∧
      g.Limit = (if f.Limit ≤ 0 then 100 else f.Limit) ∧
      g.ItemID = f.ItemID ∧ g.Action = f.Action ∧ g.Username = f.Username ∧
      g.DateFrom = f.DateFrom ∧ g.DateTo = f.DateTo ∧ g.Offset = f.Offset := by
  refine ⟨if f.Limit ≤ 0 then { f with Limit := 100 } else f, ?_, ?_⟩
  · simp only [HistoryUsecase.GetHistory]
    split <;> rfl
  · split <;> simp

/-! ## The update merge -/

/-- C6: the merge of the update handler equals the "set if present" reference
definition for every existing item and patch; spelled out, each of the six
mutable fields is decided by the presence of that field alone, and the id and
both timestamps are the existing ones; on an existing item named Bolt with
quantity 5 the patch carrying only quantity 10 yields the same item with
quantity 10. -/
theorem UpdateItem_merge_set_if_present (existing : Item) (patch : UpdateItemRequest) :
    mergeUpdate existing patch = mergeSpec existing patch ∧
    (mergeUpdate existing patch).Name =
      (if patch.Name = "" then existing.Name else patch.Name) ∧
    (mergeUpdate existing patch).SKU = (if patch.SKU = "" then existing.SKU else patch.SKU) ∧
    (mergeUpdate existing patch).Quantity = patch.Quantity.getD existing.Quantity ∧
    (mergeUpdate existing patch).Price = patch.Price.getD existing.Price ∧
    (mergeUpdate existing patch).Category =
      (if patch.Category = "" then existing.Category else patch.Category) ∧
    (mergeUpdate existing patch).Location =
      (if patch.Location = "" then existing.Location else patch.Location) ∧
    (mergeUpdate existing patch).ID = existing.ID ∧
    (mergeUpdate existing patch).CreatedAt = existing.CreatedAt ∧
    (mergeUpdate existing patch).UpdatedAt = existing.UpdatedAt ∧
    mergeUpdate { existing with Name := "Bolt", Quantity := 5 }
        { emptyPatch with Quantity := some 10 } =
      { existing with Name := "Bolt", Quantity := 10 } := by
  have h : mergeUpdate existing patch = mergeSpec existing patch := by
    obtain ⟨n, s, q, p, c, l⟩ := patch
    cases q <;> cases p <;> by_cases hn : n = "" <;> by_cases hs : s = "" <;>
      by_cases hc : c = "" <;> by_cases hl : l = "" <;>
      simp [mergeUpdate, mergeSpec, hn, hs, hc, hl]
  refine ⟨h, ?_, ?_, ?_, ?_, ?_, ?_, ?_, ?_, ?_, ?_⟩
  all_goals first
    | (rw [h]; rfl)
    | rfl

/-- C7: merging the empty patch gives back the existing item; an authorised
update request with a positive id and the empty patch therefore calls the
usecase `UpdateItem` with the id, the unchanged item and the caller name, and
answers by its result; with the items usecase behind the handler, an existing
item that passes validation reaches the repository `UpdateItem` whole. -/
theorem UpdateItem_empty_patch_not_short_circuited {ε : Type} (uc : itemsUsecase ε)
    (s : ItemsUsecase) (auth : String) (claims : Claims) (id : Int) (existing : Item)
    (t1 : List ε) (hid : 0 < id) :
    mergeUpdate existing emptyPatch = existing ∧
    (uc.GetItemByID id = (t1, .ok existing) →
      ItemsHandler.UpdateItem uc ⟨auth, .claims (some claims)⟩ (some id) (some emptyPatch) =
        (t1 ++ (uc.UpdateItem id existing claims.Username).1,
          match (uc.UpdateItem id existing claims.Username).2 with
          | some err => ItemsHandler.writeError err
          | none => .writeHeader 200)) ∧
    (s.repo.GetItemByID id = .ok existing → s.validate existing = none →
      (ItemsHandler.UpdateItem s.toHandlerUsecase ⟨auth, .claims (some claims)⟩ (some id)
        (some emptyPatch)).1 = [ItemsRepoCall.GetItemByID id, ItemsRepoCall.UpdateItem id existing])
    := by
  have hm : mergeUpdate existing emptyPatch = existing := by
    simp [mergeUpdate, emptyPatch]
  have hnot : ¬ id ≤ 0 := by omega
  refine ⟨hm, ?_, ?_⟩
  · intro hget
    simp only [ItemsHandler.UpdateItem, GetClaimsFromContext, hnot, if_false, hget, hm]
    cases hu : uc.UpdateItem id existing claims.Username with
    | mk t2 res => cases res <;> rfl
  · intro hget hval
    simp only [ItemsHandler.UpdateItem, GetClaimsFromContext, hnot, if_false, hm,
      ItemsUsecase.toHandlerUsecase, ItemsUsecase.GetItemByID, ItemsUsecase.UpdateItem, hget, hval]
    cases s.repo.UpdateItem id existing with
    | none => rfl
    | some err =>
      by_cases h1 : errorsIs err .ErrItemNotFound = true <;>
        by_cases h2 : errorsIs err .ErrDatabase = true <;> simp [h1, h2]

/-- Witness for C7: with a repository that holds the item Bolt and accepts
the update, the empty patch on id 1 leads to the repository calls
`GetItemByID 1` and `UpdateItem 1` on the unchanged item. -/
theorem UpdateItem_empty_patch_not_short_circuited_witness :
    (0 : Int) < 1 ∧
    (ItemsHandler.UpdateItem (ItemsUsecase.NewService boltRepo).toHandlerUsecase
      ⟨"", .claims (some adminClaims)⟩ (some 1) (some emptyPatch)).1 =
        [ItemsRepoCall.GetItemByID 1, ItemsRepoCall.UpdateItem 1 boltItem] :=
  ⟨by decide,
    (UpdateItem_empty_patch_not_short_circuited (ItemsUsecase.NewService boltRepo).toHandlerUsecase
      (ItemsUsecase.NewService boltRepo) "" adminClaims 1 boltItem [] (by decide)).2.2 rfl rfl⟩

/-- C8: applying the same patch twice gives the same item as applying it
once. -/
theorem UpdateItem_merge_idempotent (e : Item) (p : UpdateItemRequest) :
    mergeUpdate (mergeUpdate e p) p = mergeUpdate e p := by
  obtain ⟨n, s, q, pr, c, l⟩ := p
  cases q <;> cases pr <;> by_cases hn : n = "" <;> by_cases hs : s = "" <;>
    by_cases hc : c = "" <;> by_cases hl : l = "" <;>
    simp [mergeUpdate, hn, hs, hc, hl]

/-! ## Validation in the items usecase -/

/-- With tags asking for a non-empty name and SKU and a non-negative quantity
and price, the validator rejects every item that breaks one of the four. -/
theorem validateStruct_rejects_when_tagged (item : Item)
    (h : item.Quantity < 0 ∨ item.Price < 0 ∨ item.Name = "" ∨ item.SKU = "") :
    validateStruct [(.Name, .required), (.SKU, .required), (.Quantity, .gte 0), (.Price, .gte 0)]
      item ≠ none := by
  intro hnone
  simp only [validateStruct] at hnone
  split at hnone
  · rename_i hall
    simp [Rule.holds] at hall
    obtain ⟨h1, h2, h3, h4⟩ := hall
    rcases h with h | h | h | h
    · omega
    · linarith
    · exact h1 h
    · exact h2 h
  · cases hnone

/-- C9, evaluated on the code: the usecase built by `NewService` validates an
item against the tags of `domain.Item`, which are none, so every item passes;
an item with empty name and SKU, quantity -1 and price -1 is handed to the
repository by `CreateItem` and, with id 1, by `UpdateItem`, and whatever the
repository answers, neither call returns an error that is `ErrInvalidInput`. -/
theorem ItemsUsecase_validation_passes_invalid_item (repo : itemsRepository) :
    (∀ item, (ItemsUsecase.NewService repo).validate item = none) ∧
    ((ItemsUsecase.NewService repo).CreateItem invalidItem "admin").1 =
      [ItemsRepoCall.CreateItem invalidItem] ∧
    ((ItemsUsecase.NewService repo).UpdateItem 1 invalidItem "admin").1 =
      [ItemsRepoCall.UpdateItem 1 invalidItem] ∧
    (match ((ItemsUsecase.NewService repo).CreateItem invalidItem "admin").2 with
      | .error e => errorsIs e .ErrInvalidInput
      | .ok _ => false) = false ∧
    (match ((ItemsUsecase.NewService repo).UpdateItem 1 invalidItem "admin").2 with
      | some e => errorsIs e .ErrInvalidInput
      | none => false) = false ∧
    invalidItem.Name = "" ∧ invalidItem.SKU = "" ∧ invalidItem.Quantity < 0 ∧
    invalidItem.Price < 0 := by
  have hv : ∀ item, (ItemsUsecase.NewService repo).validate item = none := fun _ => rfl
  have hr : (ItemsUsecase.NewService repo).repo = repo := rfl
  have h1 : ¬ (1 : Int) ≤ 0 := by decide
  refine ⟨hv, ?_, ?_, ?_, ?_, rfl, rfl, by decide, ?_⟩
  · simp only [ItemsUsecase.CreateItem, hv]
    split <;> rfl
  · simp only [ItemsUsecase.UpdateItem, hv, h1, if_false]
    split <;> rfl
  · simp only [ItemsUsecase.CreateItem, hv, hr]
    cases repo.CreateItem invalidItem with
    | ok id => rfl
    | error err =>
      by_cases hd : errorsIs err .ErrDatabase = true <;>
        simp [hd, errorsIs, fmtErrorf]
  · simp only [ItemsUsecase.UpdateItem, hv, hr, h1, if_false]
    cases repo.UpdateItem 1 invalidItem with
    | none => rfl
    | some err =>
      by_cases hn : errorsIs err .ErrItemNotFound = true <;>
        by_cases hd : errorsIs err .ErrDatabase = true <;>
        simp [hn, hd, errorsIs, fmtErrorf]
  · show ((-1 : Int) : Rat) < 0
    norm_num

/-! ## The role guard -/

/-- The loop of `RequireRole` finds the role exactly when it is in the list. -/
theorem roleAllowed_iff_mem (role : UserRole) (roles : List UserRole) :
    roleAllowed role roles = true ↔ role ∈ roles := by
  induction roles with
  | nil => simp [roleAllowed]
  | cons x xs ih =>
    by_cases h : role = x
    · simp [roleAllowed, h]
    · simp [roleAllowed, h, ih]

/-- C10: on a request with resolved claims the role guard calls the next
handler (once, with the request unchanged) exactly when the role of the claims
is in the list of allowed roles, and answers 403 forbidden otherwise; two lists
with the same elements (any permutation, any duplication) give the same
outcome; the empty list forbids every role; claims with the admin role are
forbidden when only manager is allowed. -/
theorem RequireRole_set_membership (auth : String) (claims : Claims) (roles : List UserRole) :
    (AuthMiddleware.RequireRole roles ⟨auth, .claims (some claims)⟩ =
        .next ⟨auth, .claims (some claims)⟩ ↔ claims.Role ∈ roles) ∧
    (claims.Role ∉ roles →
      AuthMiddleware.RequireRole roles ⟨auth, .claims (some claims)⟩ =
        .httpError "forbidden" 403) ∧
    (∀ roles2 : List UserRole, (∀ x, x ∈ roles ↔ x ∈ roles2) →
      AuthMiddleware.RequireRole roles2 ⟨auth, .claims (some claims)⟩ =
        AuthMiddleware.RequireRole roles ⟨auth, .claims (some claims)⟩) ∧
    AuthMiddleware.RequireRole [] ⟨auth, .claims (some claims)⟩ = .httpError "forbidden" 403 ∧
    (claims.Role = RoleAdmin →
      AuthMiddleware.RequireRole [RoleManager] ⟨auth, .claims (some claims)⟩ =
        .httpError "forbidden" 403) := by
  have key : ∀ rs : List UserRole,
      AuthMiddleware.RequireRole rs ⟨auth, .claims (some claims)⟩ =
        if claims.Role ∈ rs then .next ⟨auth, .claims (some claims)⟩
        else .httpError "forbidden" 403 := by
    intro rs
    by_cases h : claims.Role ∈ rs
    · have := (roleAllowed_iff_mem claims.Role rs).2 h
      simp [AuthMiddleware.RequireRole, this, h]
    · have : roleAllowed claims.Role rs = false := by
        cases hb : roleAllowed claims.Role rs with
        | false => rfl
        | true => exact absurd ((roleAllowed_iff_mem claims.Role rs).1 hb) h
      simp [AuthMiddleware.RequireRole, this, h]
  refine ⟨?_, ?_, ?_, ?_, ?_⟩
  · rw [key]
    by_cases h : claims.Role ∈ roles <;> simp [h]
  · intro h
    rw [key, if_neg h]
  · intro roles2 hsame
    rw [key, key]
    by_cases h : claims.Role ∈ roles
    · rw [if_pos h, if_pos ((hsame _).1 h)]
    · rw [if_neg h, if_neg (fun h2 => h ((hsame _).2 h2))]
  · rw [key]
    simp
  · intro h
    rw [key, h]
    have : RoleAdmin ∉ [RoleManager] := by decide
    rw [if_neg this]

/-- Witness for C10: for claims with the manager role, the allowed lists
admin, manager and manager, admin, manager have the same elements and give
the same outcome. -/
theorem RequireRole_set_membership_witness :
    (∀ x, x ∈ [RoleAdmin, RoleManager] ↔ x ∈ [RoleManager, RoleAdmin, RoleManager]) ∧
    AuthMiddleware.RequireRole [RoleManager, RoleAdmin, RoleManager]
        ⟨"", .claims (some ⟨2, "mia", RoleManager, ⟨none, none⟩⟩)⟩ =
      AuthMiddleware.RequireRole [RoleAdmin, RoleManager]
        ⟨"", .claims (some ⟨2, "mia", RoleManager, ⟨none, none⟩⟩)⟩ :=
  ⟨by intro x; simp only [List.mem_cons, List.mem_singleton, List.mem_nil_iff]; tauto,
    (RequireRole_set_membership "" ⟨2, "mia", RoleManager, ⟨none, none⟩⟩
      [RoleAdmin, RoleManager]).2.2.1 [RoleManager, RoleAdmin, RoleManager]
      (by intro x; simp only [List.mem_cons, List.mem_singleton, List.mem_nil_iff]; tauto)⟩

/-! ## The bearer-token middleware -/

/-- A list of characters without the separator is a single piece. -/
theorem splitChars_no_sep (sep : Char) (t : List Char) (h : sep ∉ t) :
    splitChars sep t = [t] := by
  induction t with
  | nil => rfl
  | cons c cs ih =>
    have hc : c ≠ sep := fun e => h (e ▸ List.mem_cons_self _ _)
    have hcs : sep ∉ cs := fun m => h (List.mem_cons_of_mem _ m)
    simp [splitChars, hc, ih hcs]

/-- The header `Bearer t` with a token `t` free of spaces splits into the two
parts `Bearer` and `t`. -/
theorem stringsSplit_bearer (t : String) (h : ' ' ∉ t.data) :
    stringsSplit ("Bearer " ++ t) ' ' = ["Bearer", t] := by
  have hd : ("Bearer " ++ t).data = 'B' :: 'e' :: 'a' :: 'r' :: 'e' :: 'r' :: ' ' :: t.data := rfl
  simp [stringsSplit, hd, splitChars, splitChars_no_sep _ _ h]

/-- A token string that `validateToken` accepts contains no space. -/
theorem validateToken_ok_no_space (m : AuthMiddleware) (decode : String → Option SignedToken)
    (now : Time) (t : String) (c : Claims) (h : m.validateToken decode now t = .ok c) :
    ' ' ∉ t.data := by
  intro hs
  simp [AuthMiddleware.validateToken, ParseWithClaims, hs] at h

/-- C11: a request whose Authorization header is empty, or does not split at
single spaces into exactly two parts, or whose first part is not `Bearer`, or
whose second part is rejected by `validateToken`, is answered with 401
`unauthorized`, and the next handler is not called. -/
theorem Middleware_rejects_before_next (m : AuthMiddleware)
    (decode : String → Option SignedToken) (now : Time) (r : Request)
    (h : r.Authorization = "" ∨ (stringsSplit r.Authorization ' ').length ≠ 2 ∨
      (stringsSplit r.Authorization ' ')[0]? ≠ some "Bearer" ∨
      ∃ e, m.validateToken decode now ((stringsSplit r.Authorization ' ').getD 1 "") =
        .error e) :
    m.Middleware decode now r = .httpError "unauthorized" 401 ∧
    ∀ r2, m.Middleware decode now r ≠ .next r2 := by
  have key : m.Middleware decode now r = .httpError "unauthorized" 401 := by
    unfold AuthMiddleware.Middleware
    rcases h with h | h | h | ⟨e, h⟩
    · simp [h]
    · by_cases h0 : r.Authorization = ""
      · simp [h0]
      · simp [h0, h]
    · by_cases h0 : r.Authorization = ""
      · simp [h0]
      · simp only [h0, if_false]
        rw [if_pos (Or.inr h)]
    · by_cases h0 : r.Authorization = ""
      · simp [h0]
      · simp only [h0, if_false]
        split
        · rfl
        · simp only [h]
  exact ⟨key, fun r2 hn => by rw [key] at hn; cases hn⟩

/-- Witness for C11: a header with the scheme `Basic` is rejected. -/
theorem Middleware_rejects_before_next_witness :
    (stringsSplit "Basic abc" ' ')[0]? ≠ some "Bearer" ∧
    (AuthMiddleware.mk "secret").Middleware (fun _ => none) ⟨0⟩ ⟨"Basic abc", .absent⟩ =
      .httpError "unauthorized" 401 :=
  ⟨by decide,
    (Middleware_rejects_before_next (AuthMiddleware.mk "secret") (fun _ => none) ⟨0⟩
      ⟨"Basic abc", .absent⟩ (Or.inr (Or.inr (Or.inl (by decide))))).1⟩

/-- C12: on a request with the header `Bearer t`, where `validateToken`
accepts `t` with claims `c`, the middleware calls the next handler once, with
the request whose context holds `c` under the user key (the header unchanged),
and `GetClaimsFromContext` on that request gives exactly `c`;
`GetClaimsFromContext` gives nil on every request whose context holds no
claims under the user key. -/
theorem Middleware_exposes_claims (m : AuthMiddleware) (decode : String → Option SignedToken)
    (now : Time) (t : String) (c : Claims) (u : ContextValue)
    (hv : m.validateToken decode now t = .ok c) :
    m.Middleware decode now ⟨"Bearer " ++ t, u⟩ =
      .next ⟨"Bearer " ++ t, .claims (some c)⟩ ∧
    GetClaimsFromContext ⟨"Bearer " ++ t, .claims (some c)⟩ = some c ∧
    (∀ r : Request, (∀ c2, r.user ≠ .claims (some c2)) → GetClaimsFromContext r = none) := by
  have hs := validateToken_ok_no_space m decode now t c hv
  have hsplit := stringsSplit_bearer t hs
  refine ⟨?_, rfl, ?_⟩
  · have hne : ("Bearer " ++ t) ≠ "" := by
      intro e
      have := congrArg String.data e
      simp at this
    simp only [AuthMiddleware.Middleware, hne, if_false, hsplit]
    simp [hv]
  · intro r hr
    unfold GetClaimsFromContext
    cases hu : r.user with
    | absent => rfl
    | other => rfl
    | claims c2 =>
      cases c2 with
      | none => rfl
      | some c3 => exact absurd hu (hr c3)

/-- Witness for C12: a token signed with the secret of the middleware and
read before its expiry. -/
theorem Middleware_exposes_claims_witness :
    (AuthMiddleware.mk "secret").Middleware
        (singleTokenDecode "h.p.s" (signedWith .HS256 expiringClaims "secret")) ⟨0⟩
        ⟨"Bearer " ++ "h.p.s", .absent⟩ =
      .next ⟨"Bearer " ++ "h.p.s", .claims (some expiringClaims)⟩ ∧
    GetClaimsFromContext ⟨"Bearer " ++ "h.p.s", .claims (some expiringClaims)⟩ =
      some expiringClaims :=
  ⟨(Middleware_exposes_claims (AuthMiddleware.mk "secret")
      (singleTokenDecode "h.p.s" (signedWith .HS256 expiringClaims "secret")) ⟨0⟩ "h.p.s"
      expiringClaims .absent rfl).1,
   (Middleware_exposes_claims (AuthMiddleware.mk "secret")
      (singleTokenDecode "h.p.s" (signedWith .HS256 expiringClaims "secret")) ⟨0⟩ "h.p.s"
      expiringClaims .absent rfl).2.1⟩

/-! ## Token issuance and validation -/

/-- A product of hours that fits 64 bits is not changed by the wrap-around. -/
theorem wrapInt64_hours (n : Int) (hlo : -2562047 ≤ n) (hhi : n ≤ 2562047) :
    wrapInt64 (n * timeHour) = n * timeHour := by
  unfold wrapInt64 timeHour
  norm_num
  omega

/-- Whatever the library answers, `validateToken` returns claims or exactly
the invalid-token sentinel. -/
theorem validateToken_ok_or_invalid (m : AuthMiddleware) (decode : String → Option SignedToken)
    (now : Time) (s : String) :
    (∃ c, m.validateToken decode now s = .ok c) ∨
      m.validateToken decode now s = .error (.sentinel .ErrTokenInvalid) := by
  unfold AuthMiddleware.validateToken
  cases ParseWithClaims decode now s m.keyFunc with
  | error e => exact Or.inr rfl
  | ok token =>
    cases hv : token.Valid with
    | true => exact Or.inl ⟨token.Claims, by simp [hv]⟩
    | false => exact Or.inr (by simp [hv])

/-- A correctly signed token of the MAC family, read before its expiry, is
accepted with its claims. -/
theorem validateToken_accepts (m : AuthMiddleware) (decode : String → Option SignedToken)
    (now : Time) (s : String) (method : SigningMethod) (c : Claims) (exp : Time)
    (hs : ' ' ∉ s.data) (hd : decode s = some (signedWith method c m.secret))
    (hm : method.isHMAC = true) (he : c.Registered.ExpiresAt = some exp)
    (hnow : now.unixNano < exp.unixNano) :
    m.validateToken decode now s = .ok c := by
  simp [AuthMiddleware.validateToken, ParseWithClaims, hs, hd, signedWith,
    AuthMiddleware.keyFunc, hm, he, hnow]

/-- C13, evaluated on the code: with an expiry of 2562048 hours the duration
of line 48 wraps around to a negative number of nanoseconds; the token that
`Login` returns for it is rejected by `validateToken` with the same secret at
the very instant of issue. -/
theorem Login_token_round_trip_overflow :
    (0 : Int) < (AuthHandler.NewHandler adminAuthUsecase "secret" 2562048).jwtExpHours ∧
    (AuthHandler.NewHandler adminAuthUsecase "secret" 2562048).expiresAt ⟨0⟩ =
      ⟨-9223371273709551616⟩ ∧
    (∃ resp, (AuthHandler.NewHandler adminAuthUsecase "secret" 2562048).Login
        (fun _ => "h.p.s") ⟨0⟩ ⟨0⟩ (some ⟨"admin", "pw"⟩) = .json resp ∧ resp.Token = "h.p.s") ∧
    (AuthMiddleware.mk "secret").validateToken
        (singleTokenDecode "h.p.s"
          ((AuthHandler.NewHandler adminAuthUsecase "secret" 2562048).loginToken adminUser ⟨0⟩ ⟨0⟩))
        ⟨0⟩ "h.p.s" = .error (.sentinel .ErrTokenInvalid) := by
  refine ⟨by decide, by decide, ⟨_, rfl, rfl⟩, rfl⟩

/-- C13, amended: for a login request with non-empty credentials that the
usecase authenticates as `user`, an expiry between 1 and 2562047 hours and a
serialisation that the library reads back to the token it wrote, `Login`
answers with a token which `validateToken` with the same secret accepts at
every instant at least one second before the first clock reading plus the
expiry, and the claims it returns carry the id, name and role of `user`. -/
theorem Login_token_round_trip (h : AuthHandler) (encode : SignedToken → String)
    (decode : String → Option SignedToken) (req : LoginRequest) (user : User)
    (now1 now2 nowV : Time)
    (hu : req.Username ≠ "") (hp : req.Password ≠ "")
    (hauth : h.authUsecase.Authenticate req.Username req.Password = .ok user)
    (hpos : 0 < h.jwtExpHours) (hmax : h.jwtExpHours ≤ 2562047)
    (hnow : nowV.unixNano + 1000000000 ≤ now1.unixNano + h.jwtExpHours * timeHour)
    (hspace : ' ' ∉ (encode (h.loginToken user now1 now2)).data)
    (hcodec : decode (encode (h.loginToken user now1 now2)) = some (h.loginToken user now1 now2)) :
    ∃ resp, h.Login encode now1 now2 (some req) = .json resp ∧
      ∃ c, (AuthMiddleware.mk h.jwtSecret).validateToken decode nowV resp.Token = .ok c ∧
        c.UserID = user.ID ∧ c.Username = user.Username ∧ c.Role = user.Role := by
  have hw := wrapInt64_hours h.jwtExpHours (by omega) hmax
  have hexp : nowV.unixNano <
      (NewNumericDate (h.expiresAt now1)).unixNano := by
    simp only [NewNumericDate, AuthHandler.expiresAt, Time.Add, hw]
    unfold timeHour at hnow ⊢
    omega
  refine ⟨⟨encode (h.loginToken user now1 now2), h.expiresAt now1,
    ⟨user.ID, user.Username, user.Role⟩⟩, ?_, h.loginClaims user now1 now2, ?_, rfl, rfl, rfl⟩
  · simp only [AuthHandler.Login, hu, hp, or_self, if_false, hauth, SignedString,
      SigningMethod.isHMAC, if_true]
    rfl
  · exact validateToken_accepts ⟨h.jwtSecret⟩ decode nowV _ .HS256 _ _ hspace hcodec rfl rfl hexp

/-- Witness for C13: an expiry of 24 hours, issued at the epoch and validated
one hour later. -/
theorem Login_token_round_trip_witness :
    ∃ resp, (AuthHandler.NewHandler adminAuthUsecase "secret" 24).Login (fun _ => "h.p.s")
        ⟨0⟩ ⟨0⟩ (some ⟨"admin", "pw"⟩) = .json resp ∧
      ∃ c, (AuthMiddleware.mk "secret").validateToken
          (singleTokenDecode "h.p.s"
            ((AuthHandler.NewHandler adminAuthUsecase "secret" 24).loginToken adminUser ⟨0⟩ ⟨0⟩))
          ⟨3600000000000⟩ resp.Token = .ok c ∧
        c.UserID = adminUser.ID ∧ c.Username = adminUser.Username ∧ c.Role = adminUser.Role :=
  Login_token_round_trip (AuthHandler.NewHandler adminAuthUsecase "secret" 24) (fun _ => "h.p.s")
    (singleTokenDecode "h.p.s"
      ((AuthHandler.NewHandler adminAuthUsecase "secret" 24).loginToken adminUser ⟨0⟩ ⟨0⟩))
    ⟨"admin", "pw"⟩ adminUser ⟨0⟩ ⟨0⟩ ⟨3600000000000⟩ (by decide) (by decide) rfl (by decide)
    (by decide) (by decide) (by decide) rfl

/-- C14, evaluated on the code: a token correctly signed with the secret of the
middleware and validated one second after its expires-at instant is rejected
with the invalid-token sentinel, which is not the expired-token sentinel and
does not wrap it. -/
theorem validateToken_expired_is_invalid :
    (AuthMiddleware.mk "secret").validateToken
        (singleTokenDecode "h.p.s" (signedWith .HS256 expiringClaims "secret"))
        ⟨2000000000⟩ "h.p.s" = .error (.sentinel .ErrTokenInvalid) ∧
    expiringClaims.Registered.ExpiresAt = some ⟨1000000000⟩ ∧
    (GoError.sentinel .ErrTokenInvalid) ≠ GoError.sentinel .ErrTokenExpired ∧
    errorsIs (.sentinel .ErrTokenInvalid) .ErrTokenExpired = false := by
  refine ⟨rfl, rfl, by decide, rfl⟩

/-- C14, amended: `validateToken` has one failure value: whatever the token,
it returns claims or exactly the invalid-token sentinel, never the
expired-token sentinel; a correctly signed token validated at or after its
expires-at instant fails with the invalid-token sentinel, and so does a token
validated with a secret different from the one it was signed with. -/
theorem validateToken_single_failure (m : AuthMiddleware)
    (decode : String → Option SignedToken) (now : Time) (s : String) :
    ((∃ c, m.validateToken decode now s = .ok c) ∨
      m.validateToken decode now s = .error (.sentinel .ErrTokenInvalid)) ∧
    m.validateToken decode now s ≠ .error (.sentinel .ErrTokenExpired) ∧
    (∀ method c exp, decode s = some (signedWith method c m.secret) →
      c.Registered.ExpiresAt = some exp → exp.unixNano ≤ now.unixNano →
      m.validateToken decode now s = .error (.sentinel .ErrTokenInvalid)) ∧
    (∀ method c key, decode s = some (signedWith method c key) → key ≠ m.secret →
      m.validateToken decode now s = .error (.sentinel .ErrTokenInvalid)) := by
  have hcases := validateToken_ok_or_invalid m decode now s
  have notok : (∀ c, m.validateToken decode now s ≠ .ok c) →
      m.validateToken decode now s = .error (.sentinel .ErrTokenInvalid) := by
    intro hn
    rcases hcases with ⟨c, hc⟩ | hinv
    · exact absurd hc (hn c)
    · exact hinv
  refine ⟨hcases, ?_, ?_, ?_⟩
  · rcases hcases with ⟨c, hc⟩ | hinv
    · rw [hc]
      intro h
      cases h
    · rw [hinv]
      intro h
      cases h
  · intro method c exp hd he hle
    apply notok
    intro c2 hok
    have hnlt : ¬ now.unixNano < exp.unixNano := by omega
    by_cases hsp : ' ' ∈ s.data
    · simp [AuthMiddleware.validateToken, ParseWithClaims, hsp] at hok
    · by_cases hm : method.isHMAC = true
      · simp [AuthMiddleware.validateToken, ParseWithClaims, hsp, hd, signedWith,
          AuthMiddleware.keyFunc, hm, he, hnlt] at hok
      · simp [AuthMiddleware.validateToken, ParseWithClaims, hsp, hd, signedWith,
          AuthMiddleware.keyFunc, hm] at hok
  · intro method c key hd hk
    apply notok
    intro c2 hok
    by_cases hsp : ' ' ∈ s.data
    · simp [AuthMiddleware.validateToken, ParseWithClaims, hsp] at hok
    · by_cases hm : method.isHMAC = true
      · simp [AuthMiddleware.validateToken, ParseWithClaims, hsp, hd, signedWith,
          AuthMiddleware.keyFunc, hm, hk] at hok
      · simp [AuthMiddleware.validateToken, ParseWithClaims, hsp, hd, signedWith,
          AuthMiddleware.keyFunc, hm] at hok

/-- Witness for C14: the expired token of the example, and the same token
presented to a middleware with another secret before its expiry. -/
theorem validateToken_single_failure_witness :
    (AuthMiddleware.mk "secret").validateToken
        (singleTokenDecode "h.p.s" (signedWith .HS256 expiringClaims "secret"))
        ⟨2000000000⟩ "h.p.s" = .error (.sentinel .ErrTokenInvalid) ∧
    (AuthMiddleware.mk "other").validateToken
        (singleTokenDecode "h.p.s" (signedWith .HS256 expiringClaims "secret"))
        ⟨0⟩ "h.p.s" = .error (.sentinel .ErrTokenInvalid) :=
  ⟨(validateToken_single_failure (AuthMiddleware.mk "secret")
      (singleTokenDecode "h.p.s" (signedWith .HS256 expiringClaims "secret"))
      ⟨2000000000⟩ "h.p.s").2.2.1 .HS256 expiringClaims ⟨1000000000⟩ rfl rfl (by decide),
   (validateToken_single_failure (AuthMiddleware.mk "other")
      (singleTokenDecode "h.p.s" (signedWith .HS256 expiringClaims "secret"))
      ⟨0⟩ "h.p.s").2.2.2 .HS256 expiringClaims "secret" rfl (by decide)⟩

/-! ## Authentication -/

/-- C15: `Authenticate` returns a user exactly when username and password are
non-empty, the repository returns that user for the username and the password
matches the stored hash of that user; when the repository error wraps the
user-not-found sentinel and when the comparison fails, it returns the same
invalid-credentials sentinel; with an empty username or password it returns
that sentinel and makes no repository call. -/
theorem Authenticate_outcomes (repo : usersRepository)
    (compare : String → String → Option GoError) (username password : String) :
    (∀ u, (AuthUsecase.Authenticate repo compare username password).2 = .ok u ↔
      (username ≠ "" ∧ password ≠ "" ∧ repo.GetUserByUsername username = .ok u ∧
        compare u.PasswordHash password = none)) ∧
    (∀ err, username ≠ "" → password ≠ "" → repo.GetUserByUsername username = .error err →
      errorsIs err .ErrUserNotFound = true →
      (AuthUsecase.Authenticate repo compare username password).2 =
        .error (.sentinel .ErrInvalidCredentials)) ∧
    (∀ u e, username ≠ "" → password ≠ "" → repo.GetUserByUsername username = .ok u →
      compare u.PasswordHash password = some e →
      (AuthUsecase.Authenticate repo compare username password).2 =
        .error (.sentinel .ErrInvalidCredentials)) ∧
    (username = "" ∨ password = "" →
      AuthUsecase.Authenticate repo compare username password =
        ([], .error (.sentinel .ErrInvalidCredentials))) := by
  refine ⟨?_, ?_, ?_, ?_⟩
  · intro u
    unfold AuthUsecase.Authenticate
    by_cases he : username = "" ∨ password = ""
    · rw [if_pos he]
      constructor
      · intro h
        cases h
      · rintro ⟨h1, h2, -, -⟩
        rcases he with he | he
        · exact absurd he h1
        · exact absurd he h2
    · rw [if_neg he]
      have h1 : username ≠ "" := fun e => he (Or.inl e)
      have h2 : password ≠ "" := fun e => he (Or.inr e)
      cases hr : repo.GetUserByUsername username with
      | error err =>
        constructor
        · intro h
          simp only at h
          split_ifs at h
        · rintro ⟨-, -, h3, -⟩
          cases h3
      | ok user =>
        cases hc : compare user.PasswordHash password with
        | some e =>
          constructor
          · intro h
            simp only [hc] at h
            cases h
          · rintro ⟨-, -, h3, h4⟩
            cases h3
            rw [hc] at h4
            cases h4
        | none =>
          constructor
          · intro h
            simp only [hc] at h
            cases h
            exact ⟨h1, h2, rfl, hc⟩
          · rintro ⟨-, -, h3, -⟩
            cases h3
            simp only [hc]
  · intro err h1 h2 hr hnf
    have he : ¬ (username = "" ∨ password = "") := fun h => h.elim h1 h2
    simp only [AuthUsecase.Authenticate, he, if_false, hr, hnf, if_true]
  · intro u e h1 h2 hr hc
    have he : ¬ (username = "" ∨ password = "") := fun h => h.elim h1 h2
    simp only [AuthUsecase.Authenticate, he, if_false, hr, hc]
  · intro he
    simp only [AuthUsecase.Authenticate, he, if_true]

/-- Witness for C15: a repository that knows no user, asked for `ghost`. -/
theorem Authenticate_outcomes_witness :
    (AuthUsecase.Authenticate ⟨fun _ => .error (.sentinel .ErrUserNotFound), .ok []⟩
        (fun _ _ => none) "ghost" "pw").2 = .error (.sentinel .ErrInvalidCredentials) ∧
    AuthUsecase.Authenticate ⟨fun _ => .error (.sentinel .ErrUserNotFound), .ok []⟩
        (fun _ _ => none) "" "pw" = ([], .error (.sentinel .ErrInvalidCredentials)) :=
  ⟨(Authenticate_outcomes ⟨fun _ => .error (.sentinel .ErrUserNotFound), .ok []⟩
      (fun _ _ => none) "ghost" "pw").2.1 (.sentinel .ErrUserNotFound) (by decide) (by decide)
      rfl rfl,
   (Authenticate_outcomes ⟨fun _ => .error (.sentinel .ErrUserNotFound), .ok []⟩
      (fun _ _ => none) "" "pw").2.2.2 (Or.inl rfl)⟩

/-! ## The timestamps of the issued claims -/

/-- C16, evaluated on the code: with an expiry of one hour, a first clock
reading at the epoch and a second reading one second later, expires-at is
3600 s and issued-at is 1 s, so their difference is 3599 s and not the
configured hour; with both readings at the epoch and an expiry of 2562048
hours the difference is negative. -/
theorem Login_timestamps_two_readings :
    ((AuthHandler.NewHandler adminAuthUsecase "secret" 1).loginClaims adminUser
        ⟨0⟩ ⟨1000000000⟩).Registered = ⟨some ⟨3600000000000⟩, some ⟨1000000000⟩⟩ ∧
    (3600000000000 : Int) - 1000000000 ≠ 1 * timeHour ∧
    ((AuthHandler.NewHandler adminAuthUsecase "secret" 2562048).loginClaims adminUser
        ⟨0⟩ ⟨0⟩).Registered = ⟨some ⟨-9223371274000000000⟩, some ⟨0⟩⟩ ∧
    (-9223371274000000000 : Int) - 0 ≠ 2562048 * timeHour := by
  refine ⟨by decide, by decide, by decide, by decide⟩

/-- C16, amended: expires-at is the first clock reading plus the expiry
(a 64-bit product of hours) and issued-at is the second clock reading, each
truncated to whole seconds; when both readings are the same instant and the
number of hours is within 2562047 in absolute value, expires-at minus
issued-at is the configured number of hours. -/
theorem Login_timestamps (h : AuthHandler) (user : User) (now1 now2 now : Time)
    (hlo : -2562047 ≤ h.jwtExpHours) (hhi : h.jwtExpHours ≤ 2562047) :
    (h.loginClaims user now1 now2).Registered.ExpiresAt =
      some (NewNumericDate (now1.Add (wrapInt64 (h.jwtExpHours * timeHour)))) ∧
    (h.loginClaims user now1 now2).Registered.IssuedAt = some (NewNumericDate now2) ∧
    ∃ e i, (h.loginClaims user now now).Registered.ExpiresAt = some e ∧
      (h.loginClaims user now now).Registered.IssuedAt = some i ∧
      e.unixNano - i.unixNano = h.jwtExpHours * timeHour := by
  refine ⟨rfl, rfl, _, _, rfl, rfl, ?_⟩
  have hw := wrapInt64_hours h.jwtExpHours hlo hhi
  simp only [NewNumericDate, AuthHandler.expiresAt, Time.Add, hw]
  unfold timeHour
  omega

/-- Witness for C16: an expiry of 24 hours, both readings at the epoch. -/
theorem Login_timestamps_witness :
    ∃ e i, ((AuthHandler.NewHandler adminAuthUsecase "secret" 24).loginClaims adminUser
        ⟨0⟩ ⟨0⟩).Registered.ExpiresAt = some e ∧
      ((AuthHandler.NewHandler adminAuthUsecase "secret" 24).loginClaims adminUser
        ⟨0⟩ ⟨0⟩).Registered.IssuedAt = some i ∧
      e.unixNano - i.unixNano = 24 * timeHour :=
  (Login_timestamps (AuthHandler.NewHandler adminAuthUsecase "secret" 24) adminUser ⟨0⟩ ⟨0⟩ ⟨0⟩
    (by decide) (by decide)).2.2

/-- C17, evaluated on the code: a handler constructed with an expiry of -1
hours issues claims whose expires-at lies one hour before issued-at, and one
constructed with 0 hours issues claims whose expires-at equals issued-at. -/
theorem Login_expiry_not_after_issue :
    ((AuthHandler.NewHandler adminAuthUsecase "secret" (-1)).loginClaims adminUser
        ⟨0⟩ ⟨0⟩).Registered = ⟨some ⟨-3600000000000⟩, some ⟨0⟩⟩ ∧
    ¬ ((0 : Int) < -3600000000000) ∧
    ((AuthHandler.NewHandler adminAuthUsecase "secret" 0).loginClaims adminUser
        ⟨0⟩ ⟨0⟩).Registered = ⟨some ⟨0⟩, some ⟨0⟩⟩ := by
  refine ⟨by decide, by decide, by decide⟩

/-- C17, amended: when the handler is constructed with between 1 and 2562047
hours and the second clock reading is at least one second before the first
reading plus the expiry, the claims `Login` puts into the token have
expires-at strictly after issued-at. -/
theorem Login_expiry_after_issue (h : AuthHandler) (user : User) (now1 now2 : Time)
    (hpos : 0 < h.jwtExpHours) (hmax : h.jwtExpHours ≤ 2562047)
    (hclock : now2.unixNano + 1000000000 ≤ now1.unixNano + h.jwtExpHours * timeHour) :
    ∃ e i, (h.loginClaims user now1 now2).Registered.ExpiresAt = some e ∧
      (h.loginClaims user now1 now2).Registered.IssuedAt = some i ∧
      i.unixNano < e.unixNano := by
  refine ⟨_, _, rfl, rfl, ?_⟩
  have hw := wrapInt64_hours h.jwtExpHours (by omega) hmax
  simp only [NewNumericDate, AuthHandler.expiresAt, Time.Add, hw]
  unfold timeHour at hclock ⊢
  omega

/-- Witness for C17: an expiry of 24 hours, the second reading one
millisecond after the first. -/
theorem Login_expiry_after_issue_witness :
    ∃ e i, ((AuthHandler.NewHandler adminAuthUsecase "secret" 24).loginClaims adminUser
        ⟨0⟩ ⟨1000000⟩).Registered.ExpiresAt = some e ∧
      ((AuthHandler.NewHandler adminAuthUsecase "secret" 24).loginClaims adminUser
        ⟨0⟩ ⟨1000000⟩).Registered.IssuedAt = some i ∧
      i.unixNano < e.unixNano :=
  Login_expiry_after_issue (AuthHandler.NewHandler adminAuthUsecase "secret" 24) adminUser
    ⟨0⟩ ⟨1000000⟩ (by decide) (by decide) (by decide)

/-! ## The error mapping of the items handler -/

/-- C18: for every error, the response `writeError` writes is one of the five
fixed pairs of message and status, chosen by the first of the invalid-input,
not-found, forbidden and database sentinels that the error wraps (the
internal pair when it wraps none); two errors that wrap the same sentinels get
the same response; the text an error carries has no influence: wrapping with
any text leaves the response unchanged, and an error of another package gets
the internal pair whatever its text. -/
theorem writeError_non_leaking (e1 e2 : GoError) :
    ItemsHandler.writeError e1 ∈ errorResponses ∧
    ItemsHandler.writeError e1 =
      (if errorsIs e1 .ErrInvalidInput then .httpError "invalid_input" 400
       else if errorsIs e1 .ErrItemNotFound then .httpError "not_found" 404
       else if errorsIs e1 .ErrForbidden then .httpError "forbidden" 403
       else if errorsIs e1 .ErrDatabase then .httpError "database_error" 500
       else .httpError "internal_error" 500) ∧
    ((∀ s, errorsIs e1 s = errorsIs e2 s) →
      ItemsHandler.writeError e1 = ItemsHandler.writeError e2) ∧
    (∀ text1 text2 : String,
      ItemsHandler.writeError (.errorf e1 text1) = ItemsHandler.writeError (.errorf e1 text2) ∧
      ItemsHandler.writeError (.errorf e1 text1) = ItemsHandler.writeError e1 ∧
      ItemsHandler.writeError (.foreign text1) = .httpError "internal_error" 500) := by
  refine ⟨?_, rfl, ?_, ?_⟩
  · unfold ItemsHandler.writeError errorResponses
    split_ifs <;> simp
  · intro h
    unfold ItemsHandler.writeError
    simp only [h]
  · intro text1 text2
    exact ⟨rfl, rfl, rfl⟩

/-- Witness for C18: a wrapped database error and the database sentinel
itself wrap the same sentinels and get the same response. -/
theorem writeError_non_leaking_witness :
    (∀ s, errorsIs (.errorf (.sentinel .ErrDatabase) "connection refused") s =
      errorsIs (.sentinel .ErrDatabase) s) ∧
    ItemsHandler.writeError (.errorf (.sentinel .ErrDatabase) "connection refused") =
      ItemsHandler.writeError (.sentinel .ErrDatabase) :=
  ⟨fun _ => rfl,
    (writeError_non_leaking (.errorf (.sentinel .ErrDatabase) "connection refused")
      (.sentinel .ErrDatabase)).2.2.1 (fun _ => rfl)⟩

/-! ## Error propagation in the items usecase -/

/-- The error returned for a repository error is the not-found sentinel, the
database sentinel, or an error wrapping the internal sentinel, and it wraps
exactly one of the three. -/
theorem propagated_classified (e : GoError) :
    (errorsIs e .ErrItemNotFound = true → propagated e = .sentinel .ErrItemNotFound) ∧
    (errorsIs e .ErrItemNotFound = false → errorsIs e .ErrDatabase = true →
      propagated e = .sentinel .ErrDatabase) ∧
    (errorsIs e .ErrItemNotFound = false → errorsIs e .ErrDatabase = false →
      errorsIs (propagated e) .ErrInternal = true) ∧
    (errorsIs (propagated e) .ErrItemNotFound).toNat +
      (errorsIs (propagated e) .ErrDatabase).toNat +
      (errorsIs (propagated e) .ErrInternal).toNat = 1 := by
  unfold propagated
  cases h1 : errorsIs e .ErrItemNotFound <;> cases h2 : errorsIs e .ErrDatabase <;>
    simp [errorsIs, fmtErrorf]

/-- C19: called with a positive id (and, for the update, an item that passes
validation), `GetItemByID`, `UpdateItem` and `DeleteItem` make the repository
call and return its result when the repository returns no error, and for a
repository error `e` return exactly the not-found sentinel if `e` wraps it,
otherwise exactly the database sentinel if `e` wraps it, otherwise an error
wrapping the internal sentinel; the returned error is nil exactly when the
repository error is nil, and it wraps exactly one of the three categories. -/
theorem ItemsUsecase_error_propagation (s : ItemsUsecase) (id : Int) (item : Item)
    (username : String) (hid : 0 < id) (hval : s.validate item = none) :
    (s.GetItemByID id).2 =
      (match s.repo.GetItemByID id with
        | .ok found => .ok found
        | .error e => .error (propagated e)) ∧
    (s.UpdateItem id item username).2 = (s.repo.UpdateItem id item).map propagated ∧
    (s.DeleteItem id username).2 = (s.repo.DeleteItem id).map propagated ∧
    ((s.UpdateItem id item username).2 = none ↔ s.repo.UpdateItem id item = none) ∧
    ((s.DeleteItem id username).2 = none ↔ s.repo.DeleteItem id = none) ∧
    ((∃ found, (s.GetItemByID id).2 = .ok found) ↔ ∃ found, s.repo.GetItemByID id = .ok found) ∧
    (∀ e : GoError,
      (errorsIs e .ErrItemNotFound = true → propagated e = .sentinel .ErrItemNotFound) ∧
      (errorsIs e .ErrItemNotFound = false → errorsIs e .ErrDatabase = true →
        propagated e = .sentinel .ErrDatabase) ∧
      (errorsIs e .ErrItemNotFound = false → errorsIs e .ErrDatabase = false →
        errorsIs (propagated e) .ErrInternal = true) ∧
      (errorsIs (propagated e) .ErrItemNotFound).toNat +
        (errorsIs (propagated e) .ErrDatabase).toNat +
        (errorsIs (propagated e) .ErrInternal).toNat = 1) := by
  have hnot : ¬ id ≤ 0 := by omega
  have hget : (s.GetItemByID id).2 =
      (match s.repo.GetItemByID id with
        | .ok found => .ok found
        | .error e => .error (propagated e)) := by
    simp only [ItemsUsecase.GetItemByID, hnot, if_false]
    cases s.repo.GetItemByID id with
    | ok found => rfl
    | error e =>
      simp only [propagated]
      split_ifs <;> rfl
  have hupd : (s.UpdateItem id item username).2 = (s.repo.UpdateItem id item).map propagated := by
    simp only [ItemsUsecase.UpdateItem, hnot, if_false, hval]
    cases s.repo.UpdateItem id item with
    | none => rfl
    | some e =>
      simp only [propagated, Option.map]
      split_ifs <;> rfl
  have hdel : (s.DeleteItem id username).2 = (s.repo.DeleteItem id).map propagated := by
    simp only [ItemsUsecase.DeleteItem, hnot, if_false]
    cases s.repo.DeleteItem id with
    | none => rfl
    | some e =>
      simp only [propagated, Option.map]
      split_ifs <;> rfl
  refine ⟨hget, hupd, hdel, ?_, ?_, ?_, propagated_classified⟩
  · rw [hupd]
    cases s.repo.UpdateItem id item <;> simp
  · rw [hdel]
    cases s.repo.DeleteItem id <;> simp
  · rw [hget]
    cases s.repo.GetItemByID id <;> simp

/-- Witness for C19: the usecase over the example repository, id 1. -/
theorem ItemsUsecase_error_propagation_witness :
    (0 : Int) < 1 ∧ (ItemsUsecase.NewService boltRepo).validate boltItem = none ∧
    ((ItemsUsecase.NewService boltRepo).UpdateItem 1 boltItem "admin").2 =
      (boltRepo.UpdateItem 1 boltItem).map propagated :=
  ⟨by decide, rfl,
    (ItemsUsecase_error_propagation (ItemsUsecase.NewService boltRepo) 1 boltItem "admin"
      (by decide) rfl).2.1⟩

/-! ## The snapshots of history records -/

/-- The scan loop adds only records without snapshots. -/
theorem scanHistoryRows_no_snapshots (rows : List (Except GoError HistoryRow))
    (acc records : List HistoryRecord)
    (hacc : ∀ r ∈ acc, r.OldData = none ∧ r.NewData = none)
    (h : scanHistoryRows rows acc = .ok records) :
    ∀ r ∈ records, r.OldData = none ∧ r.NewData = none := by
  induction rows generalizing acc with
  | nil =>
    simp only [scanHistoryRows] at h
    cases h
    exact hacc
  | cons row rest ih =>
    cases row with
    | error err =>
      simp only [scanHistoryRows] at h
      cases h
    | ok row =>
      simp only [scanHistoryRows] at h
      refine ih _ ?_ h
      intro r hr
      rcases List.mem_append.1 hr with hr | hr
      · exact hacc r hr
      · simp only [List.mem_singleton] at hr
        subst hr
        exact ⟨rfl, rfl⟩

/-- C20: every record that `GetHistory` returns has no prior and no new
snapshot, whatever the `old_data` and `new_data` columns of its row hold, for
update rows as well as for create and delete rows. -/
theorem GetHistory_records_without_snapshots (db : HistoryDB) (filter : HistoryFilter)
    (records : List HistoryRecord)
    (h : HistoryPostgresRepository.GetHistory db filter = .ok records) :
    ∀ r ∈ records, r.OldData = none ∧ r.NewData = none := by
  unfold HistoryPostgresRepository.GetHistory at h
  cases hq : db.QueryWithRetry (buildHistoryQuery filter).1 (buildHistoryQuery filter).2 with
  | error err =>
    rw [hq] at h
    cases h
  | ok rows =>
    rw [hq] at h
    exact scanHistoryRows_no_snapshots rows [] records (fun r hr => by cases hr) h

/-- Witness for C20: a database whose single row is an update with both
snapshot columns set. -/
theorem GetHistory_records_without_snapshots_witness :
    HistoryPostgresRepository.GetHistory oneRowDB itemSevenFilter =
      .ok [⟨1, 7, "update", none, none, "admin", ⟨0⟩⟩] ∧
    ∀ r ∈ [(⟨1, 7, "update", none, none, "admin", ⟨0⟩⟩ : HistoryRecord)],
      r.OldData = none ∧ r.NewData = none :=
  ⟨rfl, GetHistory_records_without_snapshots oneRowDB itemSevenFilter _ rfl⟩

/-! ## The update merge never clears a string field -/

/-- C21: for every existing item and every patch, a non-empty existing name
(SKU, category, location) gives a non-empty merged name (SKU, category,
location); a merged string field is empty exactly when both the patch and the
existing item have it empty, so no patch resets the category or the location
of an item to the empty string. -/
theorem UpdateItem_merge_never_clears_strings (existing : Item) (patch : UpdateItemRequest) :
    (existing.Name ≠ "" → (mergeUpdate existing patch).Name ≠ "") ∧
    (existing.SKU ≠ "" → (mergeUpdate existing patch).SKU ≠ "") ∧
    (existing.Category ≠ "" → (mergeUpdate existing patch).Category ≠ "") ∧
    (existing.Location ≠ "" → (mergeUpdate existing patch).Location ≠ "") ∧
    ((mergeUpdate existing patch).Name = "" ↔ patch.Name = "" ∧ existing.Name = "") ∧
    ((mergeUpdate existing patch).SKU = "" ↔ patch.SKU = "" ∧ existing.SKU = "") ∧
    ((mergeUpdate existing patch).Category = "" ↔
      patch.Category = "" ∧ existing.Category = "") ∧
    ((mergeUpdate existing patch).Location = "" ↔
      patch.Location = "" ∧ existing.Location = "") := by
  obtain ⟨n, s, q, p, c, l⟩ := patch
  cases q <;> cases p <;> by_cases hn : n = "" <;> by_cases hs : s = "" <;>
    by_cases hc : c = "" <;> by_cases hl : l = "" <;>
    simp [mergeUpdate, hn, hs, hc, hl]

/-- Witness for C21: a patch that renames the example item and leaves the
category empty does not clear the category. -/
theorem UpdateItem_merge_never_clears_strings_witness :
    boltItem.Category ≠ "" ∧
    (mergeUpdate boltItem { emptyPatch with Name := "Nut" }).Category ≠ "" :=
  ⟨by decide,
    (UpdateItem_merge_never_clears_strings boltItem { emptyPatch with Name := "Nut" }).2.2.1
      (by decide)⟩

end WarehouseControl
